import Mathlib

/-!
A shallow embedding of the project-planner backend (services.py / database.py):
users, teams, team membership, boards and tasks stored in a relational state,
with each public operation modelled as a function from state and request to
`Except String` (the `ValidationError` channel).  A raised validation error
leaves the connection uncommitted, so `get_connection`'s close rolls the
transaction back: in the embedding, an `.error` outcome means the caller's
state is unchanged.
-/

namespace Planner

/-- Python `str.strip()` on a character list: drop leading and trailing
whitespace. -/
def pyStripList (cs : List Char) : List Char :=
  ((cs.dropWhile Char.isWhitespace).reverse.dropWhile Char.isWhitespace).reverse

/-- Python `str.strip()` on a string. -/
def pyStrip (s : String) : String :=
  String.mk (pyStripList s.data)

/-- Python `str.rstrip()`: drop trailing whitespace only. -/
def pyRstrip (cs : List Char) : List Char :=
  (cs.reverse.dropWhile Char.isWhitespace).reverse

/-- A row of the `users` table. -/
structure User where
  id : Nat
  name : String
  display_name : String
  creation_time : String
deriving DecidableEq, Repr

/-- A row of the `teams` table. -/
structure Team where
  id : Nat
  name : String
  description : String
  admin_id : Nat
  creation_time : String
deriving DecidableEq, Repr

/-- A row of the `team_members` table (the autoincrement surrogate key is
irrelevant to every query and omitted; UNIQUE(team_id, user_id) makes the
pair the identity of a row). -/
structure Member where
  team_id : Nat
  user_id : Nat
deriving DecidableEq, Repr

/-- `boards.status`: CHECK(status IN ('OPEN','CLOSED')). -/
inductive BoardStatus where
  | OPEN
  | CLOSED
deriving DecidableEq, Repr

/-- A row of the `boards` table. -/
structure Board where
  id : Nat
  name : String
  description : String
  team_id : Nat
  status : BoardStatus
  creation_time : String
  end_time : Option String
deriving DecidableEq, Repr

/-- `tasks.status`: CHECK(status IN ('OPEN','IN_PROGRESS','COMPLETE')). -/
inductive TaskStatus where
  | OPEN
  | IN_PROGRESS
  | COMPLETE
deriving DecidableEq, Repr

/-- Rendering of a task status back to its stored text. -/
def TaskStatus.text : TaskStatus → String
  | .OPEN => "OPEN"
  | .IN_PROGRESS => "IN_PROGRESS"
  | .COMPLETE => "COMPLETE"

/-- Rendering of a board status back to its stored text. -/
def BoardStatus.text : BoardStatus → String
  | .OPEN => "OPEN"
  | .CLOSED => "CLOSED"

/-- A row of the `tasks` table. -/
structure Task where
  id : Nat
  title : String
  description : String
  board_id : Nat
  user_id : Nat
  status : TaskStatus
  creation_time : String
deriving DecidableEq, Repr

/-- The whole database: the five tables plus the AUTOINCREMENT counters that
assign fresh primary keys. -/
structure DBState where
  users : List User
  teams : List Team
  members : List Member
  boards : List Board
  tasks : List Task
  nextUserId : Nat
  nextTeamId : Nat
  nextBoardId : Nat
  nextTaskId : Nat
deriving DecidableEq, Repr

/-- The freshly initialised database (`init_database` creates empty tables;
AUTOINCREMENT starts at 1). -/
def initState : DBState :=
  { users := [], teams := [], members := [], boards := [], tasks := []
    nextUserId := 1, nextTeamId := 1, nextBoardId := 1, nextTaskId := 1 }

/-- `SELECT ... FROM users WHERE id = ?` (first matching row). -/
def findUser (s : DBState) (uid : Nat) : Option User :=
  s.users.find? (fun u => u.id == uid)

/-- `SELECT ... FROM teams WHERE id = ?` (first matching row). -/
def findTeam (s : DBState) (tid : Nat) : Option Team :=
  s.teams.find? (fun t => t.id == tid)

/-- `SELECT ... FROM boards WHERE id = ?` (first matching row). -/
def findBoard (s : DBState) (bid : Nat) : Option Board :=
  s.boards.find? (fun b => b.id == bid)

/-- `SELECT ... FROM tasks WHERE id = ?` (first matching row). -/
def findTask (s : DBState) (tid : Nat) : Option Task :=
  s.tasks.find? (fun t => t.id == tid)

/-- `SELECT COUNT(*) FROM team_members WHERE team_id = ?`. -/
def teamSize (s : DBState) (tid : Nat) : Nat :=
  (s.members.filter (fun m => m.team_id == tid)).length

/-- Request payload of `UserService.create_user`; a `none` field models the
key being absent from the JSON object. -/
structure CreateUserReq where
  name : Option String
  display_name : Option String
deriving Repr

/-- `UserService.create_user` (services.py lines 16-60). -/
def createUser (s : DBState) (req : CreateUserReq) (now : String) :
    Except String (DBState × Nat) :=
  match req.name, req.display_name with
  | none, _ => .error "Missing required fields: name, display_name"
  | some _, none => .error "Missing required fields: name, display_name"
  | some rawName, some rawDisplay =>
    let name := pyStrip rawName
    let display_name := pyStrip rawDisplay
    if name.length > 64 then .error "Name cannot exceed 64 characters"
    else if display_name.length > 64 then
      .error "Display name cannot exceed 64 characters"
    else if name = "" then .error "Name cannot be empty"
    else if display_name = "" then .error "Display name cannot be empty"
    else if s.users.any (fun u => u.name == name) then
      .error "User name must be unique"
    else
      let uid := s.nextUserId
      .ok ({ s with
              users := s.users ++
                [{ id := uid, name := name, display_name := display_name,
                   creation_time := now }]
              nextUserId := uid + 1 }, uid)

/-- The `user` sub-object of an `update_user` request; only the presence of
`name` matters to the code, its value is never read. -/
structure UpdateUserPayload where
  display_name : Option String
  name : Option String
deriving Repr

/-- Request payload of `UserService.update_user`. -/
structure UpdateUserReq where
  id : Option Nat
  user : Option UpdateUserPayload
deriving Repr

/-- The two error kinds of the persistence gateway: a caller-correctable
`ValidationError` and a backend `DatabaseError` (an exception not anticipated
by the pre-checks, re-raised by the generic handler). -/
inductive SvcError where
  | validation (msg : String)
  | storage (msg : String)
deriving DecidableEq, Repr

/-- `UserService.update_user` (services.py lines 117-162).  The service
pre-validates the trimmed value only against 128 characters, but the stored
column carries `CHECK(length(display_name) <= 64)` (database.py line 36),
which SQLite enforces on UPDATE: for a trimmed value of 65-128 characters
the UPDATE raises `sqlite3.IntegrityError`, which the catch-all handler
re-raises as `DatabaseError` — a storage failure — and the uncommitted
connection is closed, so nothing is stored.  (The exact constraint text in
the message depends on the SQLite version.) -/
def updateUser (s : DBState) (req : UpdateUserReq) : Except SvcError DBState :=
  match req.id, req.user with
  | none, _ => .error (.validation "Missing required fields: id, user")
  | some _, none => .error (.validation "Missing required fields: id, user")
  | some uid, some payload =>
    match payload.display_name with
    | none =>
      .error (.validation "Missing required field: display_name in user object")
    | some rawDisplay =>
      let display_name := pyStrip rawDisplay
      if display_name.length > 128 then
        .error (.validation "Display name cannot exceed 128 characters")
      else if display_name = "" then
        .error (.validation "Display name cannot be empty")
      else if payload.name.isSome then
        .error (.validation "User name cannot be updated")
      else if (findUser s uid).isNone then
        .error (.validation "User not found")
      else if display_name.length > 64 then
        .error (.storage "Error updating user: CHECK constraint failed: users")
      else
        .ok { s with
                users := s.users.map (fun u =>
                  if u.id == uid then { u with display_name := display_name }
                  else u) }

/-- Request payload of `TeamService.create_team`. -/
structure CreateTeamReq where
  name : Option String
  description : Option String
  admin : Option Nat
deriving Repr

/-- `TeamService.create_team` (services.py lines 210-265): the team row and
the admin membership row are inserted under one commit. -/
def createTeam (s : DBState) (req : CreateTeamReq) (now : String) :
    Except String (DBState × Nat) :=
  match req.name, req.description, req.admin with
  | none, _, _ => .error "Missing required fields: name, description, admin"
  | some _, none, _ => .error "Missing required fields: name, description, admin"
  | some _, some _, none => .error "Missing required fields: name, description, admin"
  | some rawName, some rawDescription, some admin_id =>
    let name := pyStrip rawName
    let description := pyStrip rawDescription
    if name.length > 64 then .error "Name cannot exceed 64 characters"
    else if description.length > 128 then
      .error "Description cannot exceed 128 characters"
    else if name = "" then .error "Name cannot be empty"
    else if (findUser s admin_id).isNone then .error "Admin user not found"
    else if s.teams.any (fun t => t.name == name) then
      .error "Team name must be unique"
    else
      let team_id := s.nextTeamId
      .ok ({ s with
              teams := s.teams ++
                [{ id := team_id, name := name, description := description,
                   admin_id := admin_id, creation_time := now }]
              members := s.members ++ [{ team_id := team_id, user_id := admin_id }]
              nextTeamId := team_id + 1 }, team_id)

/-- One entry of the `list_teams` response. -/
structure TeamOut where
  name : String
  description : String
  creation_time : String
  admin : String
deriving DecidableEq, Repr

/-- `TeamService.list_teams` (services.py lines 267-287): all teams ordered
by creation_time; `row['description'] or ""` renders a falsy description as
the empty string. -/
def listTeams (s : DBState) : List TeamOut :=
  (s.teams.mergeSort (fun a b => a.creation_time ≤ b.creation_time)).map
    (fun t =>
      { name := t.name
        description := if t.description = "" then "" else t.description
        creation_time := t.creation_time
        admin := toString t.admin_id })

/-- The `team` sub-object of an `update_team` request. -/
structure UpdateTeamPayload where
  name : Option String
  description : Option String
  admin : Option Nat
deriving Repr

/-- Request payload of `TeamService.update_team`. -/
structure UpdateTeamReq where
  id : Option Nat
  team : Option UpdateTeamPayload
deriving Repr

/-- Apply the dynamically built `UPDATE teams SET ...` to one row. -/
def applyTeamUpdate (p : UpdateTeamPayload) (t : Team) : Team :=
  { t with
    name := match p.name with
            | some n => pyStrip n
            | none => t.name
    description := match p.description with
                   | some d => pyStrip d
                   | none => t.description
    admin_id := match p.admin with
                | some a => a
                | none => t.admin_id }

/-- `TeamService.update_team` (services.py lines 324-394).  Note that when a
new admin id is supplied, only `teams.admin_id` is updated: no membership row
is inserted for the new admin. -/
def updateTeam (s : DBState) (req : UpdateTeamReq) : Except String DBState :=
  match req.id, req.team with
  | none, _ => .error "Missing required fields: id, team"
  | some _, none => .error "Missing required fields: id, team"
  | some team_id, some payload =>
    let nameErr : Option String :=
      match payload.name with
      | none => none
      | some rawName =>
        let name := pyStrip rawName
        if name.length > 64 then some "Name cannot exceed 64 characters"
        else if name = "" then some "Name cannot be empty"
        else none
    match nameErr with
    | some e => .error e
    | none =>
      let descErr : Option String :=
        match payload.description with
        | none => none
        | some rawDescription =>
          if (pyStrip rawDescription).length > 128 then
            some "Description cannot exceed 128 characters"
          else none
      match descErr with
      | some e => .error e
      | none =>
        if payload.name.isNone && payload.description.isNone &&
            payload.admin.isNone then
          .error "No valid fields to update"
        else if (findTeam s team_id).isNone then .error "Team not found"
        else if payload.admin.isSome &&
            (match payload.admin with
             | some a => (findUser s a).isNone
             | none => false) then
          .error "Admin user not found"
        else if (match payload.name with
                 | some rawName =>
                   s.teams.any (fun t =>
                     t.name == pyStrip rawName && t.id != team_id)
                 | none => false) then
          .error "Team name must be unique"
        else
          .ok { s with
                  teams := s.teams.map (fun t =>
                    if t.id == team_id then applyTeamUpdate payload t else t) }

/-- Request payload of `add_users_to_team` / `remove_users_from_team`. -/
structure MembersReq where
  id : Option Nat
  users : Option (List Nat)
deriving Repr

/-- The user-existence pass of `add_users_to_team`: `SELECT id FROM users
WHERE id = ?` for every listed id, failing at the first unknown one. -/
def checkUsersExist (s : DBState) : List Nat → Option String
  | [] => none
  | uid :: rest =>
    if (findUser s uid).isNone then some ("User " ++ toString uid ++ " not found")
    else checkUsersExist s rest

/-- The insertion pass of `add_users_to_team`: each `INSERT INTO team_members`
that hits UNIQUE(team_id, user_id) is skipped. -/
def addMembersLoop (team_id : Nat) : List Nat → List Member → List Member
  | [], ms => ms
  | uid :: rest, ms =>
    if ms.any (fun m => m.team_id == team_id && m.user_id == uid) then
      addMembersLoop team_id rest ms
    else
      addMembersLoop team_id rest (ms ++ [{ team_id := team_id, user_id := uid }])

/-- `TeamService.add_users_to_team` (services.py lines 396-448): team check,
then capacity check on `current_size + len(user_ids)`, then existence of ALL
listed users, then the inserts, then one commit. -/
def addUsersToTeam (s : DBState) (req : MembersReq) : Except String DBState :=
  match req.id, req.users with
  | none, _ => .error "Missing required fields: id, users"
  | some _, none => .error "Missing required fields: id, users"
  | some team_id, some user_ids =>
    if (findTeam s team_id).isNone then .error "Team not found"
    else if teamSize s team_id + user_ids.length > 50 then
      .error "Cannot exceed maximum team size of 50 users"
    else
      match checkUsersExist s user_ids with
      | some e => .error e
      | none => .ok { s with members := addMembersLoop team_id user_ids s.members }

/-- The removal loop of `remove_users_from_team`: deletes run against the
uncommitted working copy of `team_members` until an id equal to the admin is
met, which raises before the commit is reached. -/
def removeMembersLoop (team_id admin_id : Nat) :
    List Nat → List Member → Except String (List Member)
  | [], ms => .ok ms
  | uid :: rest, ms =>
    if toString uid == toString admin_id then
      .error "Cannot remove team admin from team"
    else
      removeMembersLoop team_id admin_id rest
        (ms.filter (fun m => !(m.team_id == team_id && m.user_id == uid)))

/-- `TeamService.remove_users_from_team` (services.py lines 450-491).  A
raised error leaves the connection uncommitted, so `get_connection`'s close
discards the deletes already executed: the `.error` branch yields no new
state. -/
def removeUsersFromTeam (s : DBState) (req : MembersReq) :
    Except String DBState :=
  match req.id, req.users with
  | none, _ => .error "Missing required fields: id, users"
  | some _, none => .error "Missing required fields: id, users"
  | some team_id, some user_ids =>
    match findTeam s team_id with
    | none => .error "Team not found"
    | some team =>
      match removeMembersLoop team_id team.admin_id user_ids s.members with
      | .error e => .error e
      | .ok ms => .ok { s with members := ms }

/-- Request payload of `ProjectBoardService.create_board`. -/
structure CreateBoardReq where
  name : Option String
  description : Option String
  team_id : Option Nat
  creation_time : Option String
deriving Repr

/-- `ProjectBoardService.create_board` (services.py lines 538-587):
`creation_time` defaults to the current timestamp when not supplied. -/
def createBoard (s : DBState) (req : CreateBoardReq) (now : String) :
    Except String (DBState × Nat) :=
  match req.name, req.description, req.team_id with
  | none, _, _ => .error "Missing required fields: name, description, team_id"
  | some _, none, _ => .error "Missing required fields: name, description, team_id"
  | some _, some _, none => .error "Missing required fields: name, description, team_id"
  | some rawName, some rawDescription, some team_id =>
    let name := pyStrip rawName
    let description := pyStrip rawDescription
    if name.length > 64 then .error "Board name cannot exceed 64 characters"
    else if description.length > 128 then
      .error "Description cannot exceed 128 characters"
    else if name = "" then .error "Board name cannot be empty"
    else
      let creation_time := req.creation_time.getD now
      if (findTeam s team_id).isNone then .error "Team not found"
      else if s.boards.any (fun b => b.name == name && b.team_id == team_id) then
        .error "Board name must be unique for the team"
      else
        let board_id := s.nextBoardId
        .ok ({ s with
                boards := s.boards ++
                  [{ id := board_id, name := name, description := description,
                     team_id := team_id, status := .OPEN,
                     creation_time := creation_time, end_time := none }]
                nextBoardId := board_id + 1 }, board_id)

/-- `SELECT COUNT(*) FROM tasks WHERE board_id = ? AND status != 'COMPLETE'`. -/
def incompleteTaskCount (s : DBState) (board_id : Nat) : Nat :=
  (s.tasks.filter (fun t =>
    t.board_id == board_id && t.status != TaskStatus.COMPLETE)).length

/-- `ProjectBoardService.close_board` (services.py lines 589-635). -/
def closeBoard (s : DBState) (req : Option Nat) (now : String) :
    Except String DBState :=
  match req with
  | none => .error "Missing required field: id"
  | some board_id =>
    match findBoard s board_id with
    | none => .error "Board not found"
    | some board =>
      if board.status = .CLOSED then .error "Board is already closed"
      else if incompleteTaskCount s board_id > 0 then
        .error "Cannot close board with incomplete tasks"
      else
        .ok { s with
                boards := s.boards.map (fun b =>
                  if b.id == board_id then
                    { b with status := .CLOSED, end_time := some now }
                  else b) }

/-- Request payload of `ProjectBoardService.add_task`. -/
structure AddTaskReq where
  title : Option String
  description : Option String
  user_id : Option Nat
  board_id : Option Nat
  creation_time : Option String
deriving Repr

/-- `ProjectBoardService.add_task` (services.py lines 637-700): `if not
board_id` treats both a missing key and id 0 as absent. -/
def addTask (s : DBState) (req : AddTaskReq) (now : String) :
    Except String (DBState × Nat) :=
  match req.title, req.description, req.user_id with
  | none, _, _ => .error "Missing required fields: title, description, user_id"
  | some _, none, _ => .error "Missing required fields: title, description, user_id"
  | some _, some _, none => .error "Missing required fields: title, description, user_id"
  | some rawTitle, some rawDescription, some user_id =>
    let title := pyStrip rawTitle
    let description := pyStrip rawDescription
    if req.board_id = none ∨ req.board_id = some 0 then
      .error "Board ID is required"
    else
      let board_id := req.board_id.getD 0
      if title.length > 64 then .error "Task title cannot exceed 64 characters"
      else if description.length > 128 then
        .error "Description cannot exceed 128 characters"
      else if title = "" then .error "Task title cannot be empty"
      else
        let creation_time := req.creation_time.getD now
        match findBoard s board_id with
        | none => .error "Board not found"
        | some board =>
          if board.status ≠ .OPEN then .error "Can only add tasks to open boards"
          else if (findUser s user_id).isNone then .error "User not found"
          else if s.tasks.any (fun t =>
              t.title == title && t.board_id == board_id) then
            .error "Task title must be unique for the board"
          else
            let task_id := s.nextTaskId
            .ok ({ s with
                    tasks := s.tasks ++
                      [{ id := task_id, title := title,
                         description := description, board_id := board_id,
                         user_id := user_id, status := .OPEN,
                         creation_time := creation_time }]
                    nextTaskId := task_id + 1 }, task_id)

/-- `ProjectBoardService.update_task_status` (services.py lines 702-737):
the parent board is never consulted. -/
def updateTaskStatus (s : DBState) (req_id : Option Nat)
    (req_status : Option String) : Except String DBState :=
  match req_id, req_status with
  | none, _ => .error "Missing required fields: id, status"
  | some _, none => .error "Missing required fields: id, status"
  | some task_id, some status =>
    if status ∉ ["OPEN", "IN_PROGRESS", "COMPLETE"] then
      .error "Status must be one of: OPEN, IN_PROGRESS, COMPLETE"
    else if (findTask s task_id).isNone then .error "Task not found"
    else
      let newStatus : TaskStatus :=
        if status = "OPEN" then .OPEN
        else if status = "IN_PROGRESS" then .IN_PROGRESS
        else .COMPLETE
      .ok { s with
              tasks := s.tasks.map (fun t =>
                if t.id == task_id then { t with status := newStatus } else t) }

/-- One row of the export's task query: a task joined (INNER) with its
assignee's user row. -/
structure ExportTask where
  title : String
  description : String
  status : TaskStatus
  creation_time : String
  user_name : String
deriving DecidableEq, Repr

/-- The rows of `SELECT t.* , u.name FROM tasks t JOIN users u ... WHERE
t.board_id = ? ORDER BY t.creation_time`: tasks of the board whose assignee
exists, sorted by creation_time (stably, so ties keep table order). -/
def exportTasksOf (s : DBState) (board_id : Nat) : List ExportTask :=
  ((s.tasks.filter (fun t => t.board_id == board_id)).filterMap (fun t =>
    (findUser s t.user_id).map (fun u =>
      { title := t.title, description := t.description, status := t.status,
        creation_time := t.creation_time, user_name := u.name }))).mergeSort
    (fun a b => a.creation_time ≤ b.creation_time)

/-- The filename sanitisation of `export_board`: keep alphanumerics, space,
hyphen and underscore, strip trailing whitespace, then replace each space
with an underscore. -/
def sanitizeBoardName (name : String) : String :=
  String.mk ((pyRstrip (name.data.filter (fun c =>
    c.isAlphanum || c == ' ' || c == '-' || c == '_'))).map
    (fun c => if c == ' ' then '_' else c))

/-- The six content lines of one exported task entry
(`for i, task in enumerate(tasks, 1)` body). -/
def taskEntryLines (i : Nat) (t : ExportTask) : List String :=
  [toString i ++ ". " ++ t.title,
   "   Status: " ++ t.status.text,
   "   Assigned to: " ++ t.user_name,
   "   Description: " ++ (if t.description = "" then "No description" else t.description),
   "   Created: " ++ t.creation_time,
   ""]

/-- The loop over `enumerate(tasks, 1)` appending each entry's lines. -/
def taskEntriesFrom (i : Nat) : List ExportTask → List String
  | [] => []
  | t :: rest => taskEntryLines i t ++ taskEntriesFrom (i + 1) rest

/-- The header lines of the export (board name, team, description, status,
creation time, blank line). -/
def exportHeader (boardName teamName description : String)
    (status : BoardStatus) (creation_time : String) : List String :=
  [String.mk (List.replicate 60 '='),
   "BOARD EXPORT: " ++ boardName,
   String.mk (List.replicate 60 '='),
   "Team: " ++ teamName,
   "Description: " ++ (if description = "" then "No description" else description),
   "Status: " ++ status.text,
   "Created: " ++ creation_time,
   ""]

/-- The closing lines of the export. -/
def exportFooter (now : String) : List String :=
  [String.mk (List.replicate 60 '='), "Export generated on: " ++ now]

/-- What `export_board` produces: the generated filename, the path under the
fixed `out` directory, and the lines later joined with newlines into the
file. -/
structure ExportResult where
  filename : String
  filepath : String
  content : List String
deriving DecidableEq, Repr

/-- `ProjectBoardService.export_board` (services.py lines 776-857).  The
board is joined (INNER) with its team, so a dangling team also reports
"Board not found". -/
def exportBoard (s : DBState) (req : Option Nat) (now : String) :
    Except String ExportResult :=
  match req with
  | none => .error "Missing required field: id"
  | some board_id =>
    match findBoard s board_id with
    | none => .error "Board not found"
    | some board =>
      match findTeam s board.team_id with
      | none => .error "Board not found"
      | some team =>
        let tasks := exportTasksOf s board_id
        let filename := "board_" ++ toString board_id ++ "_" ++
          sanitizeBoardName board.name ++ ".txt"
        let content :=
          exportHeader board.name team.name board.description board.status
            board.creation_time ++
          (if tasks.isEmpty then
            ["No tasks in this board."]
          else
            ["TASKS:", String.mk (List.replicate 40 '-')] ++
              taskEntriesFrom 1 tasks) ++
          exportFooter now
        .ok { filename := filename, filepath := "out/" ++ filename,
              content := content }

/-- Decimal value of a digit string, used to invert `Nat.repr` (the `str()`
coercion in `remove_users_from_team`'s admin comparison). -/
def digitsVal (l : List Char) : Nat :=
  l.foldl (fun a c => a * 10 + (c.toNat - 48)) 0

/-- The invariant behind claim C1: every team's admin has a membership row
for that team. -/
def adminIsMember (s : DBState) : Prop :=
  ∀ t ∈ s.teams, Member.mk t.id t.admin_id ∈ s.members

instance (s : DBState) : Decidable (adminIsMember s) := by
  unfold adminIsMember
  exact List.decidableBAll _ _

/-- Primary keys of `teams` are sound: all below the AUTOINCREMENT counter
and pairwise distinct.  Holds in every reachable state and is what lets a
row found by id stand for every row with that id. -/
def teamIdsSound (s : DBState) : Prop :=
  (∀ t ∈ s.teams, t.id < s.nextTeamId) ∧ (s.teams.map Team.id).Nodup

/-- One mutating public operation, unrestricted: the transition relation of
the service layer. -/
inductive StepAll : DBState → DBState → Prop where
  | ofCreateUser (s : DBState) (req : CreateUserReq) (now : String)
      (s' : DBState) (uid : Nat) (h : createUser s req now = .ok (s', uid)) :
      StepAll s s'
  | ofUpdateUser (s : DBState) (req : UpdateUserReq) (s' : DBState)
      (h : updateUser s req = .ok s') : StepAll s s'
  | ofCreateTeam (s : DBState) (req : CreateTeamReq) (now : String)
      (s' : DBState) (tid : Nat) (h : createTeam s req now = .ok (s', tid)) :
      StepAll s s'
  | ofUpdateTeam (s : DBState) (req : UpdateTeamReq) (s' : DBState)
      (h : updateTeam s req = .ok s') : StepAll s s'
  | ofAddMembers (s : DBState) (req : MembersReq) (s' : DBState)
      (h : addUsersToTeam s req = .ok s') : StepAll s s'
  | ofRemoveMembers (s : DBState) (req : MembersReq) (s' : DBState)
      (h : removeUsersFromTeam s req = .ok s') : StepAll s s'
  | ofCreateBoard (s : DBState) (req : CreateBoardReq) (now : String)
      (s' : DBState) (bid : Nat) (h : createBoard s req now = .ok (s', bid)) :
      StepAll s s'
  | ofCloseBoard (s : DBState) (req : Option Nat) (now : String) (s' : DBState)
      (h : closeBoard s req now = .ok s') : StepAll s s'
  | ofAddTask (s : DBState) (req : AddTaskReq) (now : String) (s' : DBState)
      (tid : Nat) (h : addTask s req now = .ok (s', tid)) : StepAll s s'
  | ofUpdateTaskStatus (s : DBState) (i : Option Nat) (st : Option String)
      (s' : DBState) (h : updateTaskStatus s i st = .ok s') : StepAll s s'

/-- States reachable from the fresh database through the public operations. -/
def ReachableAll (s : DBState) : Prop :=
  Relation.ReflTransGen StepAll initState s

/-- Like `StepAll`, but an `update_team` step that supplies a new admin id is
only taken when that admin already holds a membership row for the team. -/
inductive StepSafe : DBState → DBState → Prop where
  | ofCreateUser (s : DBState) (req : CreateUserReq) (now : String)
      (s' : DBState) (uid : Nat) (h : createUser s req now = .ok (s', uid)) :
      StepSafe s s'
  | ofUpdateUser (s : DBState) (req : UpdateUserReq) (s' : DBState)
      (h : updateUser s req = .ok s') : StepSafe s s'
  | ofCreateTeam (s : DBState) (req : CreateTeamReq) (now : String)
      (s' : DBState) (tid : Nat) (h : createTeam s req now = .ok (s', tid)) :
      StepSafe s s'
  | ofUpdateTeam (s : DBState) (req : UpdateTeamReq) (s' : DBState)
      (hadm : ∀ p, req.team = some p → ∀ a, p.admin = some a →
        ∀ tid, req.id = some tid → Member.mk tid a ∈ s.members)
      (h : updateTeam s req = .ok s') : StepSafe s s'
  | ofAddMembers (s : DBState) (req : MembersReq) (s' : DBState)
      (h : addUsersToTeam s req = .ok s') : StepSafe s s'
  | ofRemoveMembers (s : DBState) (req : MembersReq) (s' : DBState)
      (h : removeUsersFromTeam s req = .ok s') : StepSafe s s'
  | ofCreateBoard (s : DBState) (req : CreateBoardReq) (now : String)
      (s' : DBState) (bid : Nat) (h : createBoard s req now = .ok (s', bid)) :
      StepSafe s s'
  | ofCloseBoard (s : DBState) (req : Option Nat) (now : String) (s' : DBState)
      (h : closeBoard s req now = .ok s') : StepSafe s s'
  | ofAddTask (s : DBState) (req : AddTaskReq) (now : String) (s' : DBState)
      (tid : Nat) (h : addTask s req now = .ok (s', tid)) : StepSafe s s'
  | ofUpdateTaskStatus (s : DBState) (i : Option Nat) (st : Option String)
      (s' : DBState) (h : updateTaskStatus s i st = .ok s') : StepSafe s s'

/-- States reachable when every admin-changing `update_team` names an admin
who is already a member (the restriction claim C1 turns out to need). -/
def ReachableSafe (s : DBState) : Prop :=
  Relation.ReflTransGen StepSafe initState s

/-! ## Concrete states used to exercise the operations

Each state below is the literal result of running a chain of operations from
`initState`; the theorems later check each transition by evaluation. -/

/-- After `create_user` "alice". -/
def exAlice : DBState :=
  { users := [{ id := 1, name := "alice", display_name := "Alice A",
                creation_time := "t1" }]
    teams := [], members := [], boards := [], tasks := []
    nextUserId := 2, nextTeamId := 1, nextBoardId := 1, nextTaskId := 1 }

/-- After `create_team` "Eng" with admin alice. -/
def exTeam : DBState :=
  { exAlice with
    teams := [{ id := 1, name := "Eng", description := "d", admin_id := 1,
                creation_time := "t2" }]
    members := [{ team_id := 1, user_id := 1 }]
    nextTeamId := 2 }

/-- After a second `create_user` "bob" on `exAlice`. -/
def exAliceBob : DBState :=
  { exAlice with
    users := exAlice.users ++
      [{ id := 2, name := "bob", display_name := "Bob B",
         creation_time := "t2" }]
    nextUserId := 3 }

/-- After `create_team` "Eng" (admin alice) on `exAliceBob`. -/
def exTeamBob : DBState :=
  { exAliceBob with
    teams := [{ id := 1, name := "Eng", description := "d", admin_id := 1,
                creation_time := "t3" }]
    members := [{ team_id := 1, user_id := 1 }]
    nextTeamId := 2 }

/-- After `add_users_to_team` [bob] on `exTeamBob`. -/
def exTeamBoth : DBState :=
  { exTeamBob with
    members := [{ team_id := 1, user_id := 1 }, { team_id := 1, user_id := 2 }] }

/-- After `update_team` switching the admin of team 1 to bob: the admin_id
changes but no membership row for bob is inserted. -/
def exAdminSwitched : DBState :=
  { exTeamBob with
    teams := [{ id := 1, name := "Eng", description := "d", admin_id := 2,
                creation_time := "t3" }] }

/-- After `create_board` "B" for team 1 on `exTeam`. -/
def exBoard : DBState :=
  { exTeam with
    boards := [{ id := 1, name := "B", description := "bd", team_id := 1,
                 status := .OPEN, creation_time := "t3", end_time := none }]
    nextBoardId := 2 }

/-- After `add_task` "T" (assignee alice) on `exBoard`. -/
def exTask : DBState :=
  { exBoard with
    tasks := [{ id := 1, title := "T", description := "td", board_id := 1,
                user_id := 1, status := .OPEN, creation_time := "t4" }]
    nextTaskId := 2 }

/-- After `update_task_status` of task 1 to COMPLETE on `exTask`. -/
def exTaskDone : DBState :=
  { exBoard with
    tasks := [{ id := 1, title := "T", description := "td", board_id := 1,
                user_id := 1, status := .COMPLETE, creation_time := "t4" }]
    nextTaskId := 2 }

/-- After `close_board` of board 1 on `exTaskDone`. -/
def exClosed : DBState :=
  { exTaskDone with
    boards := [{ id := 1, name := "B", description := "bd", team_id := 1,
                 status := .CLOSED, creation_time := "t3",
                 end_time := some "t5" }] }

/-- After `update_task_status` of task 1 back to OPEN on `exClosed`: a CLOSED
board now holds a non-COMPLETE task. -/
def exClosedReopened : DBState :=
  { exClosed with
    tasks := [{ id := 1, title := "T", description := "td", board_id := 1,
                user_id := 1, status := .OPEN, creation_time := "t4" }] }

/-- A display_name of 65 characters: it passes `update_user`'s 128-character
pre-check but violates the stored column's CHECK(length <= 64). -/
def longDisplayName : String :=
  String.mk (List.replicate 65 'a')

/-! ## Helper lemmas -/

theorem toDigitsCore_fuel {n f1 f2 : Nat} (h1 : n < f1) (h2 : n < f2)
    (acc : List Char) :
    Nat.toDigitsCore 10 f1 n acc = Nat.toDigitsCore 10 f2 n acc := by
  induction n using Nat.strong_induction_on generalizing f1 f2 acc with
  | _ n ih =>
    match f1, f2 with
    | k1 + 1, k2 + 1 =>
      simp only [Nat.toDigitsCore]
      by_cases h : n / 10 = 0
      · simp [h]
      · simp only [h, if_false]
        have hn10 : n / 10 < n := Nat.div_lt_self (Nat.pos_of_ne_zero (by
          intro hz; subst hz; simp at h)) (by norm_num)
        exact ih (n / 10) hn10
          (Nat.lt_of_lt_of_le hn10 (Nat.lt_succ_iff.mp h1))
          (Nat.lt_of_lt_of_le hn10 (Nat.lt_succ_iff.mp h2)) _

theorem toDigitsCore_append (f : Nat) :
    ∀ (n : Nat) (acc : List Char),
      Nat.toDigitsCore 10 f n acc = Nat.toDigitsCore 10 f n [] ++ acc := by
  induction f with
  | zero => intro n acc; simp [Nat.toDigitsCore]
  | succ k ih =>
    intro n acc
    simp only [Nat.toDigitsCore]
    by_cases h : n / 10 = 0
    · simp [h]
    · simp only [h, if_false]
      rw [ih (n / 10) ((n % 10).digitChar :: acc),
          ih (n / 10) [(n % 10).digitChar]]
      simp

theorem digitsVal_toDigits (n : Nat) : digitsVal (Nat.toDigits 10 n) = n := by
  induction n using Nat.strong_induction_on with
  | _ n ih =>
    unfold Nat.toDigits
    by_cases h : n / 10 = 0
    · have hn : n < 10 := (Nat.div_eq_zero_iff (by norm_num)).mp h
      simp only [Nat.toDigitsCore, h, if_true]
      have : ∀ d : Fin 10, ((d : Nat).digitChar.toNat - 48) = (d : Nat) := by decide
      have hmod : n % 10 = n := Nat.mod_eq_of_lt hn
      simpa [digitsVal, hmod] using this ⟨n, hn⟩
    · have hn10 : n / 10 < n := Nat.div_lt_self (Nat.pos_of_ne_zero (by
        intro hz; subst hz; simp at h)) (by norm_num)
      have step : Nat.toDigitsCore 10 (n + 1) n [] =
          Nat.toDigitsCore 10 (n / 10 + 1) (n / 10) [] ++
            [(n % 10).digitChar] := by
        conv_lhs => simp only [Nat.toDigitsCore]
        simp only [h, if_false]
        rw [toDigitsCore_append]
        congr 1
        exact toDigitsCore_fuel hn10 (Nat.lt_succ_self _) []
      rw [step]
      have hdig : ((n % 10).digitChar.toNat - 48) = n % 10 := by
        have : ∀ d : Fin 10, ((d : Nat).digitChar.toNat - 48) = (d : Nat) := by
          decide
        simpa using this ⟨n % 10, Nat.mod_lt _ (by norm_num)⟩
      have := ih (n / 10) hn10
      unfold Nat.toDigits at this
      simp only [digitsVal, List.foldl_append] at this ⊢
      rw [this, List.foldl_cons, List.foldl_nil, hdig]
      omega

theorem natRepr_injective : Function.Injective Nat.repr := by
  intro a b h
  have hdata : Nat.toDigits 10 a = Nat.toDigits 10 b := by
    have := congrArg String.data h
    simpa [Nat.repr, List.asString] using this
  have := congrArg digitsVal hdata
  simpa [digitsVal_toDigits] using this

theorem toString_nat_eq_iff (a b : Nat) : toString a = toString b ↔ a = b := by
  constructor
  · exact fun h => natRepr_injective h
  · intro h; subst h; rfl

theorem findTeam_mem {s : DBState} {tid : Nat} {t : Team}
    (h : findTeam s tid = some t) : t ∈ s.teams ∧ t.id = tid := by
  unfold findTeam at h
  refine ⟨List.mem_of_find?_eq_some h, ?_⟩
  have := List.find?_some h
  simpa using this

theorem findUser_mem {s : DBState} {uid : Nat} {u : User}
    (h : findUser s uid = some u) : u ∈ s.users ∧ u.id = uid := by
  unfold findUser at h
  refine ⟨List.mem_of_find?_eq_some h, ?_⟩
  have := List.find?_some h
  simpa using this

theorem findBoard_mem {s : DBState} {bid : Nat} {b : Board}
    (h : findBoard s bid = some b) : b ∈ s.boards ∧ b.id = bid := by
  unfold findBoard at h
  refine ⟨List.mem_of_find?_eq_some h, ?_⟩
  have := List.find?_some h
  simpa using this

theorem removeMembersLoop_ok_not_admin {tid a : Nat} {uids : List Nat}
    {ms ms' : List Member}
    (h : removeMembersLoop tid a uids ms = .ok ms') :
    ∀ uid ∈ uids, uid ≠ a := by
  induction uids generalizing ms with
  | nil => intro uid hu; simp at hu
  | cons uid rest ih =>
    intro v hv
    unfold removeMembersLoop at h
    by_cases he : toString uid == toString a
    · simp [he] at h
    · simp only [he, if_false] at h
      rcases List.mem_cons.mp hv with rfl | hvr
      · intro hva; subst hva
        simp at he
      · exact ih h v hvr

theorem removeMembersLoop_ok_filter {tid a : Nat} {uids : List Nat}
    {ms ms' : List Member}
    (h : removeMembersLoop tid a uids ms = .ok ms') :
    ms' = ms.filter (fun m =>
      !(m.team_id == tid && decide (m.user_id ∈ uids))) := by
  induction uids generalizing ms with
  | nil =>
    unfold removeMembersLoop at h
    simp only [Except.ok.injEq] at h
    subst h
    simp
  | cons uid rest ih =>
    unfold removeMembersLoop at h
    by_cases he : toString uid == toString a
    · simp [he] at h
    · simp only [he, if_false] at h
      rw [ih h, List.filter_filter]
      apply List.filter_congr
      intro m _
      by_cases h1 : m.team_id = tid <;> by_cases h2 : m.user_id = uid <;>
        simp [h1, h2, List.mem_cons]

theorem addMembersLoop_mem_iff (tid : Nat) (uids : List Nat)
    (ms : List Member) (m : Member) :
    m ∈ addMembersLoop tid uids ms ↔
      m ∈ ms ∨ (m.team_id = tid ∧ m.user_id ∈ uids) := by
  induction uids generalizing ms with
  | nil => simp [addMembersLoop]
  | cons uid rest ih =>
    unfold addMembersLoop
    cases hp : ms.any (fun x => x.team_id == tid && x.user_id == uid) with
    | true =>
      simp only [if_true, ih]
      constructor
      · rintro (hm | ⟨ht, hu⟩)
        · exact Or.inl hm
        · exact Or.inr ⟨ht, List.mem_cons_of_mem _ hu⟩
      · rintro (hm | ⟨ht, hu⟩)
        · exact Or.inl hm
        · rcases List.mem_cons.mp hu with huv | hu
          · left
            rcases List.any_eq_true.mp hp with ⟨x, hx, hxe⟩
            simp only [Bool.and_eq_true, beq_iff_eq] at hxe
            have hmx : m = x := by
              cases m; cases x
              simp_all
            rw [hmx]; exact hx
          · exact Or.inr ⟨ht, hu⟩
    | false =>
      simp only [Bool.false_eq_true, if_false, ih]
      constructor
      · rintro (hm | ⟨ht, hu⟩)
        · rcases List.mem_append.mp hm with hm | hm
          · exact Or.inl hm
          · simp only [List.mem_singleton] at hm
            subst hm
            exact Or.inr ⟨rfl, List.mem_cons_self _ _⟩
        · exact Or.inr ⟨ht, List.mem_cons_of_mem _ hu⟩
      · rintro (hm | ⟨ht, hu⟩)
        · exact Or.inl (List.mem_append_left _ hm)
        · rcases List.mem_cons.mp hu with huv | hu
          · left
            apply List.mem_append_right
            have hmk : m = Member.mk tid uid := by
              cases m; simp_all
            simp [hmk]
          · exact Or.inr ⟨ht, hu⟩

theorem createUser_ok_shape {s : DBState} {req : CreateUserReq} {now : String}
    {s' : DBState} {uid : Nat} (h : createUser s req now = .ok (s', uid)) :
    s'.teams = s.teams ∧ s'.members = s.members ∧
      s'.nextTeamId = s.nextTeamId ∧ s'.boards = s.boards ∧
      s'.tasks = s.tasks := by
  unfold createUser at h
  split at h
  · exact Except.noConfusion h
  · exact Except.noConfusion h
  · dsimp only at h
    repeat' split at h
    any_goals exact Except.noConfusion h
    rw [Except.ok.injEq, Prod.mk.injEq] at h
    obtain ⟨h1, h2⟩ := h
    subst h1
    exact ⟨rfl, rfl, rfl, rfl, rfl⟩

theorem updateUser_ok_shape {s : DBState} {req : UpdateUserReq} {s' : DBState}
    (h : updateUser s req = .ok s') :
    s'.teams = s.teams ∧ s'.members = s.members ∧
      s'.nextTeamId = s.nextTeamId ∧ s'.boards = s.boards ∧
      s'.tasks = s.tasks := by
  unfold updateUser at h
  split at h
  · exact Except.noConfusion h
  · exact Except.noConfusion h
  · split at h
    · exact Except.noConfusion h
    · dsimp only at h
      repeat' split at h
      any_goals exact Except.noConfusion h
      rw [Except.ok.injEq] at h
      subst h
      exact ⟨rfl, rfl, rfl, rfl, rfl⟩

theorem createTeam_ok_shape {s : DBState} {req : CreateTeamReq} {now : String}
    {s' : DBState} {tid : Nat} (h : createTeam s req now = .ok (s', tid)) :
    tid = s.nextTeamId ∧ s'.nextTeamId = tid + 1 ∧
      (∃ a, req.admin = some a ∧
        (∃ nm ds, s'.teams = s.teams ++ [⟨tid, nm, ds, a, now⟩]) ∧
        s'.members = s.members ++ [⟨tid, a⟩]) ∧
      s'.boards = s.boards ∧ s'.tasks = s.tasks := by
  unfold createTeam at h
  split at h
  · exact Except.noConfusion h
  · exact Except.noConfusion h
  · exact Except.noConfusion h
  · rename_i rawName rawDesc admin hname hdesc hadmin
    dsimp only at h
    repeat' split at h
    any_goals exact Except.noConfusion h
    rw [Except.ok.injEq, Prod.mk.injEq] at h
    obtain ⟨h1, h2⟩ := h
    subst h1
    subst h2
    exact ⟨rfl, rfl, ⟨admin, hadmin, ⟨_, _, rfl⟩, rfl⟩, rfl, rfl⟩

theorem updateTeam_ok_shape {s : DBState} {req : UpdateTeamReq} {s' : DBState}
    (h : updateTeam s req = .ok s') :
    ∃ tid p, req.id = some tid ∧ req.team = some p ∧
      s'.teams = s.teams.map (fun t =>
        if t.id == tid then applyTeamUpdate p t else t) ∧
      s'.members = s.members ∧ s'.nextTeamId = s.nextTeamId ∧
      s'.boards = s.boards ∧ s'.tasks = s.tasks := by
  unfold updateTeam at h
  split at h
  · exact Except.noConfusion h
  · exact Except.noConfusion h
  · rename_i tid p hid hteam
    dsimp only at h
    repeat' split at h
    any_goals exact Except.noConfusion h
    rw [Except.ok.injEq] at h
    subst h
    exact ⟨tid, p, hid, hteam, rfl, rfl, rfl, rfl, rfl⟩

theorem addUsersToTeam_ok_shape {s : DBState} {req : MembersReq} {s' : DBState}
    (h : addUsersToTeam s req = .ok s') :
    ∃ tid uids, req.id = some tid ∧ req.users = some uids ∧
      s'.members = addMembersLoop tid uids s.members ∧
      s'.teams = s.teams ∧ s'.nextTeamId = s.nextTeamId ∧
      s'.boards = s.boards ∧ s'.tasks = s.tasks := by
  unfold addUsersToTeam at h
  split at h
  · exact Except.noConfusion h
  · exact Except.noConfusion h
  · rename_i tid uids hid husers
    repeat' split at h
    any_goals exact Except.noConfusion h
    rw [Except.ok.injEq] at h
    subst h
    exact ⟨tid, uids, hid, husers, rfl, rfl, rfl, rfl, rfl⟩

theorem removeUsersFromTeam_ok_shape {s : DBState} {req : MembersReq}
    {s' : DBState} (h : removeUsersFromTeam s req = .ok s') :
    ∃ tid uids team, req.id = some tid ∧ req.users = some uids ∧
      findTeam s tid = some team ∧
      removeMembersLoop tid team.admin_id uids s.members = .ok s'.members ∧
      s'.teams = s.teams ∧ s'.nextTeamId = s.nextTeamId ∧
      s'.boards = s.boards ∧ s'.tasks = s.tasks := by
  unfold removeUsersFromTeam at h
  split at h
  · exact Except.noConfusion h
  · exact Except.noConfusion h
  · rename_i tid uids hid husers
    split at h
    · exact Except.noConfusion h
    · rename_i team hteam
      split at h
      · exact Except.noConfusion h
      · rename_i ms hloop
        rw [Except.ok.injEq] at h
        subst h
        exact ⟨tid, uids, team, hid, husers, hteam, hloop, rfl, rfl, rfl, rfl⟩

theorem createBoard_ok_shape {s : DBState} {req : CreateBoardReq} {now : String}
    {s' : DBState} {bid : Nat} (h : createBoard s req now = .ok (s', bid)) :
    s'.teams = s.teams ∧ s'.members = s.members ∧
      s'.nextTeamId = s.nextTeamId ∧ s'.tasks = s.tasks ∧
      s'.users = s.users := by
  unfold createBoard at h
  split at h
  · exact Except.noConfusion h
  · exact Except.noConfusion h
  · exact Except.noConfusion h
  · dsimp only at h
    repeat' split at h
    any_goals exact Except.noConfusion h
    rw [Except.ok.injEq, Prod.mk.injEq] at h
    obtain ⟨h1, h2⟩ := h
    subst h1
    exact ⟨rfl, rfl, rfl, rfl, rfl⟩

theorem closeBoard_ok_shape {s : DBState} {req : Option Nat} {now : String}
    {s' : DBState} (h : closeBoard s req now = .ok s') :
    s'.teams = s.teams ∧ s'.members = s.members ∧
      s'.nextTeamId = s.nextTeamId ∧ s'.tasks = s.tasks ∧
      s'.users = s.users := by
  unfold closeBoard at h
  repeat' split at h
  any_goals exact Except.noConfusion h
  rw [Except.ok.injEq] at h
  subst h
  exact ⟨rfl, rfl, rfl, rfl, rfl⟩

theorem addTask_ok_shape {s : DBState} {req : AddTaskReq} {now : String}
    {s' : DBState} {tid : Nat} (h : addTask s req now = .ok (s', tid)) :
    s'.teams = s.teams ∧ s'.members = s.members ∧
      s'.nextTeamId = s.nextTeamId ∧ s'.boards = s.boards ∧
      s'.users = s.users := by
  unfold addTask at h
  split at h
  · exact Except.noConfusion h
  · exact Except.noConfusion h
  · exact Except.noConfusion h
  · dsimp only at h
    repeat' split at h
    any_goals exact Except.noConfusion h
    rw [Except.ok.injEq, Prod.mk.injEq] at h
    obtain ⟨h1, h2⟩ := h
    subst h1
    exact ⟨rfl, rfl, rfl, rfl, rfl⟩

theorem updateTaskStatus_ok_shape {s : DBState} {i : Option Nat}
    {st : Option String} {s' : DBState} (h : updateTaskStatus s i st = .ok s') :
    s'.teams = s.teams ∧ s'.members = s.members ∧
      s'.nextTeamId = s.nextTeamId ∧ s'.boards = s.boards ∧
      s'.users = s.users := by
  unfold updateTaskStatus at h
  repeat' split at h
  any_goals exact Except.noConfusion h
  all_goals
    dsimp only at h
    rw [Except.ok.injEq] at h
    subst h
    exact ⟨rfl, rfl, rfl, rfl, rfl⟩

theorem teamIdsSound_congr {s s' : DBState} (ht : s'.teams = s.teams)
    (hn : s'.nextTeamId = s.nextTeamId) (h : teamIdsSound s) :
    teamIdsSound s' := by
  unfold teamIdsSound at *
  rw [ht, hn]
  exact h

theorem adminIsMember_congr {s s' : DBState} (ht : s'.teams = s.teams)
    (hm : s'.members = s.members) (h : adminIsMember s) :
    adminIsMember s' := by
  unfold adminIsMember at *
  rw [ht, hm]
  exact h

theorem applyTeamUpdate_id (p : UpdateTeamPayload) (t : Team) :
    (applyTeamUpdate p t).id = t.id := rfl

theorem stepSafe_preserves {s s' : DBState} (hstep : StepSafe s s')
    (hids : teamIdsSound s) (hadm : adminIsMember s) :
    teamIdsSound s' ∧ adminIsMember s' := by
  cases hstep with
  | ofCreateUser _ _ _ _ h =>
    obtain ⟨ht, hm, hn, _, _⟩ := createUser_ok_shape h
    exact ⟨teamIdsSound_congr ht hn hids, adminIsMember_congr ht hm hadm⟩
  | ofUpdateUser _ _ h =>
    obtain ⟨ht, hm, hn, _, _⟩ := updateUser_ok_shape h
    exact ⟨teamIdsSound_congr ht hn hids, adminIsMember_congr ht hm hadm⟩
  | ofCreateTeam _ _ _ tid h =>
    obtain ⟨htid, hn, ⟨a, hadm_req, ⟨nm, ds, hteams⟩, hmembers⟩, _, _⟩ :=
      createTeam_ok_shape h
    subst htid
    constructor
    · constructor
      · intro t hmem
        rw [hteams] at hmem
        rcases List.mem_append.mp hmem with hold | hnew
        · have := hids.1 t hold
          omega
        · simp only [List.mem_singleton] at hnew
          subst hnew
          simp [hn]
      · rw [hteams, List.map_append]
        apply List.Nodup.append hids.2 (by simp)
        intro x hx hy
        simp only [List.map_singleton, List.mem_singleton] at hy
        subst hy
        rcases List.mem_map.mp hx with ⟨t, htm, hidm⟩
        have := hids.1 t htm
        omega
    · intro t hmem
      rw [hteams] at hmem
      rcases List.mem_append.mp hmem with hold | hnew
      · exact hmembers ▸ List.mem_append_left _ (hadm t hold)
      · simp only [List.mem_singleton] at hnew
        subst hnew
        rw [hmembers]
        exact List.mem_append_right _ (by simp)
  | ofUpdateTeam _ _ hsafe h =>
    obtain ⟨tid, p, hid, hteam, hteams, hmembers, hn, _, _⟩ :=
      updateTeam_ok_shape h
    constructor
    · constructor
      · intro t hmem
        rw [hteams] at hmem
        rcases List.mem_map.mp hmem with ⟨t0, ht0, heq⟩
        have hidkept : t.id = t0.id := by
          subst heq
          by_cases hc : t0.id = tid
          · rw [if_pos (by simpa using hc), applyTeamUpdate_id]
          · rw [if_neg (by simpa using hc)]
        rw [hidkept, hn]
        exact hids.1 t0 ht0
      · rw [hteams, List.map_map]
        have hcomp : (Team.id ∘ fun t =>
            if t.id == tid then applyTeamUpdate p t else t) = Team.id := by
          funext t
          by_cases hc : t.id = tid
          · simp only [Function.comp_apply]
            rw [if_pos (by simpa using hc), applyTeamUpdate_id]
          · simp only [Function.comp_apply]
            rw [if_neg (by simpa using hc)]
        rw [hcomp]
        exact hids.2
    · intro t hmem
      rw [hteams] at hmem
      rcases List.mem_map.mp hmem with ⟨t0, ht0, heq⟩
      rw [hmembers]
      subst heq
      by_cases hc : t0.id = tid
      · rw [if_pos (by simpa using hc)]
        cases hpadm : p.admin with
        | none =>
          have h1 : (applyTeamUpdate p t0).admin_id = t0.admin_id := by
            simp [applyTeamUpdate, hpadm]
          rw [applyTeamUpdate_id, h1]
          exact hadm t0 ht0
        | some a =>
          have h1 : (applyTeamUpdate p t0).admin_id = a := by
            simp [applyTeamUpdate, hpadm]
          rw [applyTeamUpdate_id, h1, hc]
          exact hsafe p hteam a hpadm tid hid
      · rw [if_neg (by simpa using hc)]
        exact hadm t0 ht0
  | ofAddMembers _ _ h =>
    obtain ⟨tid, uids, hid, husers, hmembers, hteams, hn, _, _⟩ :=
      addUsersToTeam_ok_shape h
    refine ⟨teamIdsSound_congr hteams hn hids, ?_⟩
    intro t hmem
    rw [hteams] at hmem
    rw [hmembers, addMembersLoop_mem_iff]
    exact Or.inl (hadm t hmem)
  | ofRemoveMembers _ _ h =>
    obtain ⟨tid, uids, team, hid, husers, hteam, hloop, hteams, hn, _, _⟩ :=
      removeUsersFromTeam_ok_shape h
    refine ⟨teamIdsSound_congr hteams hn hids, ?_⟩
    intro t hmem
    rw [hteams] at hmem
    have hfilter := removeMembersLoop_ok_filter hloop
    rw [hfilter, List.mem_filter]
    refine ⟨hadm t hmem, ?_⟩
    have hnotadmin := removeMembersLoop_ok_not_admin hloop
    by_cases hc : t.id = tid
    · obtain ⟨hteammem, hteamid⟩ := findTeam_mem hteam
      have hte : t = team :=
        List.inj_on_of_nodup_map hids.2 hmem hteammem (by rw [hc, hteamid])
      subst hte
      simp only [hc, beq_self_eq_true, Bool.true_and, Bool.not_eq_true',
        decide_eq_false_iff_not]
      exact fun hin => hnotadmin _ hin rfl
    · simp [hc]
  | ofCreateBoard _ _ _ _ h =>
    obtain ⟨hteams, hm, hn, _, _⟩ := createBoard_ok_shape h
    exact ⟨teamIdsSound_congr hteams hn hids, adminIsMember_congr hteams hm hadm⟩
  | ofCloseBoard _ _ _ h =>
    obtain ⟨hteams, hm, hn, _, _⟩ := closeBoard_ok_shape h
    exact ⟨teamIdsSound_congr hteams hn hids, adminIsMember_congr hteams hm hadm⟩
  | ofAddTask _ _ _ _ h =>
    obtain ⟨hteams, hm, hn, _, _⟩ := addTask_ok_shape h
    exact ⟨teamIdsSound_congr hteams hn hids, adminIsMember_congr hteams hm hadm⟩
  | ofUpdateTaskStatus _ _ _ h =>
    obtain ⟨hteams, hm, hn, _, _⟩ := updateTaskStatus_ok_shape h
    exact ⟨teamIdsSound_congr hteams hn hids, adminIsMember_congr hteams hm hadm⟩

theorem initState_sound : teamIdsSound initState ∧ adminIsMember initState := by
  constructor
  · exact ⟨fun t ht => by simp [initState] at ht, by simp [initState, teamIdsSound]⟩
  · intro t ht
    simp [initState] at ht

theorem reachableSafe_sound {s : DBState} (h : ReachableSafe s) :
    teamIdsSound s ∧ adminIsMember s := by
  unfold ReachableSafe at h
  induction h with
  | refl => exact initState_sound
  | tail _ hstep ih => exact stepSafe_preserves hstep ih.1 ih.2

/-! ## Claims -/

/-- C1 (amended): in every state reachable through the public operations —
with admin-changing `update_team` restricted to new admins who already hold a
membership row — every team's admin is a member of that team.  The
restriction is forced: `update_team` updates `teams.admin_id` without
inserting a membership row, so an unrestricted admin change breaks the
invariant (see the counterexample).  `create_team` writes the team row and
the admin membership row as one atomic unit, and no other operation can
remove the admin's row. -/
theorem C1_admin_always_member {s : DBState} (h : ReachableSafe s) :
    adminIsMember s :=
  (reachableSafe_sound h).2

/-- Witness for C1: the state after `create_user` "alice" and `create_team`
"Eng" is reachable and satisfies the invariant. -/
theorem C1_admin_always_member_witness :
    ReachableSafe exTeam ∧ adminIsMember exTeam := by
  have h1 : StepSafe initState exAlice :=
    StepSafe.ofCreateUser _ ⟨some "alice", some "Alice A"⟩ "t1" _ 1 rfl
  have h2 : StepSafe exAlice exTeam :=
    StepSafe.ofCreateTeam _ ⟨some "Eng", some "d", some 1⟩ "t2" _ 1 rfl
  have hr : ReachableSafe exTeam :=
    Relation.ReflTransGen.tail (Relation.ReflTransGen.tail
      Relation.ReflTransGen.refl h1) h2
  exact ⟨hr, C1_admin_always_member hr⟩

/-- Counterexample to C1 as stated: after `create_user` "alice",
`create_user` "bob", `create_team` "Eng" (admin alice) and `update_team`
setting the admin to bob, the state is reachable through the public
operations but team 1's admin (bob) has no membership row, because
`update_team` only rewrites `teams.admin_id`. -/
theorem C1_counterexample :
    ReachableAll exAdminSwitched ∧ ¬ adminIsMember exAdminSwitched := by
  have h1 : StepAll initState exAlice :=
    StepAll.ofCreateUser _ ⟨some "alice", some "Alice A"⟩ "t1" _ 1 rfl
  have h2 : StepAll exAlice exAliceBob :=
    StepAll.ofCreateUser _ ⟨some "bob", some "Bob B"⟩ "t2" _ 2 rfl
  have h3 : StepAll exAliceBob exTeamBob :=
    StepAll.ofCreateTeam _ ⟨some "Eng", some "d", some 1⟩ "t3" _ 1 rfl
  have h4 : StepAll exTeamBob exAdminSwitched :=
    StepAll.ofUpdateTeam _ ⟨some 1, some ⟨none, none, some 2⟩⟩ _ rfl
  refine ⟨?_, by decide⟩
  exact Relation.ReflTransGen.tail (Relation.ReflTransGen.tail
    (Relation.ReflTransGen.tail (Relation.ReflTransGen.tail
      Relation.ReflTransGen.refl h1) h2) h3) h4

theorem toString_nat_beq_false {a b : Nat} (h : a ≠ b) :
    (toString a == toString b) = false := by
  simp only [beq_eq_false_iff_ne, ne_eq]
  intro hc
  exact h (natRepr_injective hc)

theorem removeMembersLoop_admin_mem {tid a : Nat} {uids : List Nat}
    (ms : List Member) (hin : a ∈ uids) :
    removeMembersLoop tid a uids ms =
      .error "Cannot remove team admin from team" := by
  induction uids generalizing ms with
  | nil => simp at hin
  | cons uid rest ih =>
    unfold removeMembersLoop
    by_cases he : uid = a
    · subst he
      simp
    · rw [toString_nat_beq_false he]
      simp only [Bool.false_eq_true, if_false]
      rcases List.mem_cons.mp hin with h1 | h1
      · exact absurd h1.symm he
      · exact ih _ h1

theorem removeMembersLoop_no_admin_ok {tid a : Nat} {uids : List Nat}
    (ms : List Member) (hnin : a ∉ uids) :
    removeMembersLoop tid a uids ms =
      .ok (ms.filter (fun m =>
        !(m.team_id == tid && decide (m.user_id ∈ uids)))) := by
  induction uids generalizing ms with
  | nil => simp [removeMembersLoop]
  | cons uid rest ih =>
    unfold removeMembersLoop
    have huid : uid ≠ a := fun h => hnin (h ▸ List.mem_cons_self _ _)
    rw [toString_nat_beq_false (fun h => huid h)]
    simp only [Bool.false_eq_true, if_false]
    rw [ih _ (fun h => hnin (List.mem_cons_of_mem _ h))]
    congr 1
    rw [List.filter_filter]
    apply List.filter_congr
    intro m _
    by_cases h1 : m.team_id = tid <;> by_cases h2 : m.user_id = uid <;>
      simp [h1, h2, List.mem_cons]

/-- C2: `remove_users_from_team` fails validation whenever any listed id
equals the team's admin_id — regardless of where in the batch the admin
appears — and a validation failure means the connection is closed without a
commit, so no membership row is removed (in the embedding an `.error`
outcome carries no state).  On success every listed (team, user) row is
removed; a listed non-member simply matches no row (silent no-op). -/
theorem C2_remove_members_admin_protected {s : DBState} {tid : Nat}
    {uids : List Nat} {team : Team} (hteam : findTeam s tid = some team) :
    (team.admin_id ∈ uids →
      removeUsersFromTeam s ⟨some tid, some uids⟩ =
        .error "Cannot remove team admin from team") ∧
    (team.admin_id ∉ uids →
      removeUsersFromTeam s ⟨some tid, some uids⟩ =
        .ok { s with members := s.members.filter (fun m =>
          !(m.team_id == tid && decide (m.user_id ∈ uids))) }) := by
  constructor
  · intro hin
    unfold removeUsersFromTeam
    simp only [hteam]
    rw [removeMembersLoop_admin_mem _ hin]
  · intro hnin
    unfold removeUsersFromTeam
    simp only [hteam]
    rw [removeMembersLoop_no_admin_ok _ hnin]

/-- Witness for C2: on the team whose members are alice (admin) and bob,
removing [bob, alice] fails with the admin-protection error even though bob
precedes the admin in the batch; and removing [bob, 7] (7 is not a member)
succeeds, deleting only bob's row. -/
theorem C2_remove_members_admin_protected_witness :
    removeUsersFromTeam exTeamBoth ⟨some 1, some [2, 1]⟩ =
      .error "Cannot remove team admin from team" ∧
    removeUsersFromTeam exTeamBoth ⟨some 1, some [2, 7]⟩ =
      .ok { exTeamBoth with members := [{ team_id := 1, user_id := 1 }] } := by
  constructor
  · exact (@C2_remove_members_admin_protected exTeamBoth 1 [2, 1]
      ⟨1, "Eng", "d", 1, "t3"⟩ rfl).1 (by decide)
  · have h := (@C2_remove_members_admin_protected exTeamBoth 1 [2, 7]
      ⟨1, "Eng", "d", 1, "t3"⟩ rfl).2 (by decide)
    rw [h]
    rfl

theorem checkUsersExist_none_iff (s : DBState) (uids : List Nat) :
    checkUsersExist s uids = none ↔ ∀ uid ∈ uids, (findUser s uid).isSome := by
  induction uids with
  | nil => simp [checkUsersExist]
  | cons uid rest ih =>
    unfold checkUsersExist
    by_cases hf : (findUser s uid).isNone
    · simp only [hf, if_true]
      constructor
      · intro h
        exact absurd h (by simp)
      · intro h
        have := h uid (List.mem_cons_self _ _)
        rw [Option.isNone_iff_eq_none] at hf
        simp [hf] at this
    · simp only [hf, Bool.false_eq_true, if_false, ih]
      constructor
      · intro h v hv
        rcases List.mem_cons.mp hv with rfl | hv
        · cases ho : findUser s v with
          | none => rw [ho] at hf; simp at hf
          | some u => simp [ho]
        · exact h v hv
      · intro h v hv
        exact h v (List.mem_cons_of_mem _ hv)

theorem checkUsersExist_some_shape {s : DBState} {uids : List Nat}
    {msg : String} (h : checkUsersExist s uids = some msg) :
    ∃ uid : Nat, msg = "User " ++ toString uid ++ " not found" := by
  induction uids with
  | nil => simp [checkUsersExist] at h
  | cons uid rest ih =>
    unfold checkUsersExist at h
    by_cases hf : (findUser s uid).isNone
    · simp only [hf, if_true, Option.some.injEq] at h
      exact ⟨uid, h.symm⟩
    · simp only [hf, Bool.false_eq_true, if_false] at h
      exact ih h

/-- C3: `add_users_to_team` validates the existence of every listed user
before inserting any membership row, so a batch with any unknown id fails
validation and (the connection being closed uncommitted) adds nothing; if
every listed id exists, the call succeeds and afterwards the team's
membership is exactly the old membership plus the listed ids — ids already
present are skipped when their insert hits UNIQUE(team_id, user_id). -/
theorem C3_add_members_all_or_nothing {s : DBState} {tid : Nat}
    {uids : List Nat} {team : Team} (hteam : findTeam s tid = some team)
    (hcap : teamSize s tid + uids.length ≤ 50) :
    ((∃ uid ∈ uids, findUser s uid = none) →
      ∃ msg, addUsersToTeam s ⟨some tid, some uids⟩ = .error msg) ∧
    ((∀ uid ∈ uids, (findUser s uid).isSome) →
      ∃ s', addUsersToTeam s ⟨some tid, some uids⟩ = .ok s' ∧
        s'.teams = s.teams ∧ s'.boards = s.boards ∧ s'.tasks = s.tasks ∧
        s'.users = s.users ∧
        (∀ m : Member, m ∈ s'.members ↔
          m ∈ s.members ∨ (m.team_id = tid ∧ m.user_id ∈ uids))) := by
  have hteamN : (findTeam s tid).isNone = false := by simp [hteam]
  constructor
  · rintro ⟨uid, huid, hnone⟩
    unfold addUsersToTeam
    simp only [hteamN, Bool.false_eq_true, if_false]
    rw [if_neg (by omega)]
    have hne : checkUsersExist s uids ≠ none := by
      rw [Ne, checkUsersExist_none_iff]
      intro hall
      have := hall uid huid
      simp [hnone] at this
    rcases Option.ne_none_iff_exists.mp hne with ⟨msg, hmsg⟩
    rw [← hmsg]
    exact ⟨msg, rfl⟩
  · intro hall
    unfold addUsersToTeam
    simp only [hteamN, Bool.false_eq_true, if_false]
    rw [if_neg (by omega), (checkUsersExist_none_iff s uids).mpr hall]
    refine ⟨_, rfl, rfl, rfl, rfl, rfl, ?_⟩
    intro m
    exact addMembersLoop_mem_iff tid uids s.members m

/-- Witness for C3: on the team of alice and bob, adding the unknown user 9
together with bob fails, while adding [bob, bob] (a duplicate of an existing
member) succeeds and leaves the membership set {alice, bob}. -/
theorem C3_add_members_all_or_nothing_witness :
    (∃ msg, addUsersToTeam exTeamBoth ⟨some 1, some [2, 9]⟩ = .error msg) ∧
    (∃ s', addUsersToTeam exTeamBoth ⟨some 1, some [2, 2]⟩ = .ok s' ∧
      s'.teams = exTeamBoth.teams ∧ s'.boards = exTeamBoth.boards ∧
      s'.tasks = exTeamBoth.tasks ∧ s'.users = exTeamBoth.users ∧
      (∀ m : Member, m ∈ s'.members ↔
        m ∈ exTeamBoth.members ∨ (m.team_id = 1 ∧ m.user_id ∈ [2, 2]))) := by
  constructor
  · exact (@C3_add_members_all_or_nothing exTeamBoth 1 [2, 9]
      ⟨1, "Eng", "d", 1, "t3"⟩ rfl (by decide)).1
      ⟨9, by decide, by decide⟩
  · exact (@C3_add_members_all_or_nothing exTeamBoth 1 [2, 2]
      ⟨1, "Eng", "d", 1, "t3"⟩ rfl (by decide)).2
      (by decide)

theorem userMsg_ne_capacityMsg (uid : Nat) :
    "User " ++ toString uid ++ " not found" ≠
      "Cannot exceed maximum team size of 50 users" := by
  intro h
  have h2 : ("User " ++ toString uid ++ " not found").data.head? =
      ("Cannot exceed maximum team size of 50 users").data.head? := by rw [h]
  have hL : ("User " ++ toString uid ++ " not found").data.head? =
      some 'U' := rfl
  rw [hL] at h2
  exact absurd h2 (by decide)

/-- Counterexample to C4 as stated: on the team whose only member is its
admin alice, `add_users_to_team` with a batch of 51 copies of bob's id fails
the capacity check — `current_size + len(user_ids)` is 52 — even though the
resulting membership count would be 2, far below 50.  The check counts the
raw batch length, not the resulting membership. -/
theorem C4_counterexample :
    addUsersToTeam exTeamBob ⟨some 1, some (List.replicate 51 2)⟩ =
      .error "Cannot exceed maximum team size of 50 users" ∧
    ((exTeamBob.members.filter (fun m : Member => m.team_id == 1)).map
        Member.user_id ++ List.replicate 51 2).dedup.length ≤ 50 := by
  exact ⟨rfl, by decide⟩

/-- C4 (amended): given an existing team, `add_users_to_team` fails with the
capacity error exactly when the team's current membership count plus the raw
length of the batch (counting duplicates and ids that are already members)
exceeds 50; the resulting membership count plays no role. -/
theorem C4_capacity_check {s : DBState} {tid : Nat} {uids : List Nat}
    {team : Team} (hteam : findTeam s tid = some team) :
    addUsersToTeam s ⟨some tid, some uids⟩ =
        .error "Cannot exceed maximum team size of 50 users" ↔
      teamSize s tid + uids.length > 50 := by
  have hteamN : (findTeam s tid).isNone = false := by simp [hteam]
  unfold addUsersToTeam
  simp only [hteamN, Bool.false_eq_true, if_false]
  by_cases hcap : teamSize s tid + uids.length > 50
  · rw [if_pos hcap]
    simp [hcap]
  · rw [if_neg hcap]
    constructor
    · intro h
      exfalso
      cases hchk : checkUsersExist s uids with
      | none =>
        rw [hchk] at h
        exact Except.noConfusion h
      | some msg =>
        rw [hchk] at h
        rcases checkUsersExist_some_shape hchk with ⟨uid, rfl⟩
        rw [Except.error.injEq] at h
        exact userMsg_ne_capacityMsg uid h
    · intro h
      exact absurd h hcap

/-- Witness for C4 (amended): on the two-member team, a batch of 48 copies
of bob's id passes the capacity check (2 + 48 ≤ 50) while a batch of 49
copies fails it (2 + 49 > 50), although both would leave the membership
count at 2. -/
theorem C4_capacity_check_witness :
    ¬ (addUsersToTeam exTeamBoth ⟨some 1, some (List.replicate 48 2)⟩ =
        .error "Cannot exceed maximum team size of 50 users") ∧
    addUsersToTeam exTeamBoth ⟨some 1, some (List.replicate 49 2)⟩ =
      .error "Cannot exceed maximum team size of 50 users" := by
  constructor
  · intro h
    have := (@C4_capacity_check exTeamBoth 1 (List.replicate 48 2)
      ⟨1, "Eng", "d", 1, "t3"⟩ rfl).mp h
    simp [teamSize, exTeamBoth, exTeamBob, exAliceBob, exAlice] at this
  · exact (@C4_capacity_check exTeamBoth 1 (List.replicate 49 2)
      ⟨1, "Eng", "d", 1, "t3"⟩ rfl).mpr (by decide)

/-- C5: `close_board` on an existing board succeeds iff the board's status
is OPEN and every task of the board is COMPLETE (vacuously true for a board
with zero tasks); on success the board's status becomes CLOSED and its
end_time the current timestamp, everything else unchanged; closing an
already-CLOSED board fails validation (and, the connection closing without
commit, changes no board field). -/
theorem C5_close_board {s : DBState} {bid : Nat} {board : Board}
    {now : String} (hboard : findBoard s bid = some board) :
    ((∃ s', closeBoard s (some bid) now = .ok s') ↔
      (board.status = .OPEN ∧
        ∀ t ∈ s.tasks, t.board_id = bid → t.status = .COMPLETE)) ∧
    (∀ s', closeBoard s (some bid) now = .ok s' →
      s' = { s with boards := s.boards.map (fun b =>
        if b.id == bid then { b with status := .CLOSED, end_time := some now }
        else b) }) ∧
    (board.status = .CLOSED →
      closeBoard s (some bid) now = .error "Board is already closed") := by
  have hcount : incompleteTaskCount s bid = 0 ↔
      ∀ t ∈ s.tasks, t.board_id = bid → t.status = .COMPLETE := by
    unfold incompleteTaskCount
    rw [List.length_eq_zero, List.filter_eq_nil_iff]
    constructor
    · intro h t ht hb
      have := h t ht
      simp [hb] at this
      exact this
    · intro h t ht
      simp only [Bool.and_eq_true, beq_iff_eq, bne_iff_ne, ne_eq, not_and]
      intro hb
      simp [h t ht hb]
  refine ⟨⟨?_, ?_⟩, ?_, ?_⟩
  · rintro ⟨s', hs'⟩
    unfold closeBoard at hs'
    simp only [hboard] at hs'
    by_cases hst : board.status = BoardStatus.CLOSED
    · rw [if_pos hst] at hs'
      exact Except.noConfusion hs'
    · rw [if_neg hst] at hs'
      have hopen : board.status = .OPEN := by
        cases hbs : board.status
        · rfl
        · exact absurd hbs hst
      by_cases hinc : incompleteTaskCount s bid > 0
      · rw [if_pos hinc] at hs'
        exact Except.noConfusion hs'
      · exact ⟨hopen, hcount.mp (by omega)⟩
  · rintro ⟨hopen, hall⟩
    unfold closeBoard
    simp only [hboard]
    rw [if_neg (by simp [hopen]), if_neg (by
      have := hcount.mpr hall
      omega)]
    exact ⟨_, rfl⟩
  · intro s' hs'
    unfold closeBoard at hs'
    simp only [hboard] at hs'
    repeat' split at hs'
    any_goals exact Except.noConfusion hs'
    exact (Except.ok.inj hs').symm
  · intro hclosed
    unfold closeBoard
    simp only [hboard]
    rw [if_pos hclosed]

/-- Witness for C5: the board with its single task COMPLETE closes
successfully. -/
theorem C5_close_board_witness :
    ∃ s', closeBoard exTaskDone (some 1) "t5" = Except.ok s' :=
  (@C5_close_board exTaskDone 1 ⟨1, "B", "bd", 1, .OPEN, "t3", none⟩ "t5"
    rfl).1.mpr ⟨rfl, by decide⟩

/-- Counterexample to C6 as stated: user 1 (alice) exists, the 65-character
display_name is non-empty after trimming and well within 128 characters, and
the payload has no `name` key — yet `update_user` does not return the
success marker: the UPDATE violates `CHECK(length(display_name) <= 64)` on
the `users` table, and the `IntegrityError` is re-raised as a
`DatabaseError` storage failure with nothing stored. -/
theorem C6_counterexample :
    ((findUser exAlice 1).isSome ∧ pyStrip longDisplayName ≠ "" ∧
      (pyStrip longDisplayName).length ≤ 128) ∧
    updateUser exAlice ⟨some 1, some ⟨some longDisplayName, none⟩⟩ =
      .error (.storage "Error updating user: CHECK constraint failed: users") := by
  exact ⟨⟨by decide, by decide, by decide⟩, rfl⟩

/-- C6 (amended): `update_user` with an `id` and a `user` object carrying
`display_name` (and possibly `name`) returns the success marker and stores
the trimmed value iff the user exists, the trimmed display_name is
non-empty and at most 64 characters, and the payload carries no `name` key.
The service itself validates only against 128 characters: a trimmed value
of 65-128 characters passes every pre-check but the UPDATE then violates
the column's CHECK(length <= 64) and surfaces as a storage failure
(`DatabaseError`), not a validation failure, with nothing stored; a
validation failure occurs only when the id is unknown, the value is empty
after trimming, the value exceeds 128 characters, or the payload includes
`name`. -/
theorem C6_update_user (s : DBState) (uid : Nat) (d : String)
    (nOpt : Option String) :
    ((∃ s', updateUser s ⟨some uid, some ⟨some d, nOpt⟩⟩ = .ok s') ↔
      ((findUser s uid).isSome ∧ pyStrip d ≠ "" ∧ (pyStrip d).length ≤ 64 ∧
        nOpt = none)) ∧
    (∀ s', updateUser s ⟨some uid, some ⟨some d, nOpt⟩⟩ = .ok s' →
      s' = { s with users := s.users.map (fun u =>
        if u.id == uid then { u with display_name := pyStrip d } else u) }) ∧
    ((findUser s uid).isSome → pyStrip d ≠ "" → 64 < (pyStrip d).length →
      (pyStrip d).length ≤ 128 → nOpt = none →
      ∃ msg, updateUser s ⟨some uid, some ⟨some d, nOpt⟩⟩ =
        .error (.storage msg)) ∧
    (∀ e, updateUser s ⟨some uid, some ⟨some d, nOpt⟩⟩ =
        .error (SvcError.validation e) →
      ((findUser s uid).isNone = true ∨ pyStrip d = "" ∨
        128 < (pyStrip d).length ∨ nOpt ≠ none)) := by
  refine ⟨⟨?_, ?_⟩, ?_, ?_, ?_⟩
  · rintro ⟨s', hs'⟩
    unfold updateUser at hs'
    dsimp only at hs'
    by_cases h128 : (pyStrip d).length > 128
    · rw [if_pos h128] at hs'
      exact Except.noConfusion hs'
    · rw [if_neg h128] at hs'
      by_cases hemp : pyStrip d = ""
      · rw [if_pos hemp] at hs'
        exact Except.noConfusion hs'
      · rw [if_neg hemp] at hs'
        by_cases hname : nOpt.isSome = true
        · rw [if_pos hname] at hs'
          exact Except.noConfusion hs'
        · rw [if_neg hname] at hs'
          by_cases hfound : (findUser s uid).isNone = true
          · rw [if_pos hfound] at hs'
            exact Except.noConfusion hs'
          · rw [if_neg hfound] at hs'
            by_cases h64 : (pyStrip d).length > 64
            · rw [if_pos h64] at hs'
              exact Except.noConfusion hs'
            · refine ⟨?_, hemp, by omega, ?_⟩
              · cases ho : findUser s uid with
                | none => rw [ho] at hfound; simp at hfound
                | some u => simp [ho]
              · cases hn : nOpt with
                | none => rfl
                | some v => rw [hn] at hname; simp at hname
  · rintro ⟨hfound, hemp, h64, hname⟩
    subst hname
    unfold updateUser
    dsimp only
    rw [if_neg (by omega), if_neg hemp, if_neg (by simp),
      if_neg (by
        simp only [Option.isNone_iff_eq_none]
        intro hc
        rw [hc] at hfound
        simp at hfound), if_neg (by omega)]
    exact ⟨_, rfl⟩
  · intro s' hs'
    unfold updateUser at hs'
    dsimp only at hs'
    repeat' split at hs'
    any_goals exact Except.noConfusion hs'
    exact (Except.ok.inj hs').symm
  · intro hfound hemp h64 h128 hname
    subst hname
    unfold updateUser
    dsimp only
    rw [if_neg (by omega), if_neg hemp, if_neg (by simp),
      if_neg (by
        simp only [Option.isNone_iff_eq_none]
        intro hc
        rw [hc] at hfound
        simp at hfound), if_pos h64]
    exact ⟨_, rfl⟩
  · intro e he
    unfold updateUser at he
    dsimp only at he
    by_cases h128 : (pyStrip d).length > 128
    · exact Or.inr (Or.inr (Or.inl h128))
    · rw [if_neg h128] at he
      by_cases hemp : pyStrip d = ""
      · exact Or.inr (Or.inl hemp)
      · rw [if_neg hemp] at he
        by_cases hname : nOpt.isSome = true
        · refine Or.inr (Or.inr (Or.inr ?_))
          cases hn : nOpt with
          | none => rw [hn] at hname; simp at hname
          | some v => simp
        · rw [if_neg hname] at he
          by_cases hfound : (findUser s uid).isNone = true
          · exact Or.inl hfound
          · rw [if_neg hfound] at he
            by_cases h64 : (pyStrip d).length > 64
            · rw [if_pos h64] at he
              rw [Except.error.injEq] at he
              exact SvcError.noConfusion he
            · rw [if_neg h64] at he
              exact Except.noConfusion he

/-- Witness for C6 (amended): updating alice's display_name to " Alicia "
(trimmed to "Alicia", 6 characters) succeeds, while a 65-character value hits
the storage-failure path. -/
theorem C6_update_user_witness :
    (∃ s', updateUser exAlice ⟨some 1, some ⟨some " Alicia ", none⟩⟩ =
      Except.ok s') ∧
    (∃ msg, updateUser exAlice ⟨some 1, some ⟨some longDisplayName, none⟩⟩ =
      Except.error (SvcError.storage msg)) := by
  constructor
  · exact (C6_update_user exAlice 1 " Alicia " none).1.mpr
      ⟨by decide, by decide, by decide, rfl⟩
  · exact (C6_update_user exAlice 1 longDisplayName none).2.2.1
      (by decide) (by decide) (by decide) (by decide) rfl

/-- C7: for every existing board, `export_board` names the file
`board_<id>_<sanitized-name>.txt` — `sanitizeBoardName` keeps alphanumerics,
spaces, hyphens and underscores, strips trailing whitespace and turns the
remaining spaces into underscores — and places it under the fixed `out`
directory. -/
theorem C7_export_filename {s : DBState} {bid : Nat} {now : String}
    {r : ExportResult} (h : exportBoard s (some bid) now = .ok r) :
    ∃ board, findBoard s bid = some board ∧
      r.filename = "board_" ++ toString bid ++ "_" ++
        sanitizeBoardName board.name ++ ".txt" ∧
      r.filepath = "out/" ++ r.filename := by
  unfold exportBoard at h
  dsimp only at h
  cases hb : findBoard s bid with
  | none =>
    rw [hb] at h
    exact Except.noConfusion h
  | some board =>
    rw [hb] at h
    dsimp only at h
    cases ht : findTeam s board.team_id with
    | none =>
      rw [ht] at h
      exact Except.noConfusion h
    | some team =>
      rw [ht] at h
      dsimp only at h
      obtain rfl := (Except.ok.inj h).symm
      exact ⟨board, rfl, rfl, rfl⟩

/-- Witness for C7: exporting board 1 of the one-task state yields the
filename `board_1_B.txt` under `out`. -/
theorem C7_export_filename_witness :
    ∃ r board, exportBoard exTask (some 1) "t9" = Except.ok r ∧
      findBoard exTask 1 = some board ∧
      r.filename = "board_" ++ toString 1 ++ "_" ++
        sanitizeBoardName board.name ++ ".txt" ∧
      r.filepath = "out/" ++ r.filename := by
  obtain ⟨r, hr⟩ : ∃ r, exportBoard exTask (some 1) "t9" = Except.ok r :=
    ⟨_, rfl⟩
  obtain ⟨board, h1, h2, h3⟩ := C7_export_filename hr
  exact ⟨r, board, hr, h1, h2, h3⟩

theorem taskEntriesFrom_enumFrom (i : Nat) (ts : List ExportTask) :
    taskEntriesFrom i ts =
      (List.enumFrom i ts).flatMap (fun p => taskEntryLines p.1 p.2) := by
  induction ts generalizing i with
  | nil => simp [taskEntriesFrom]
  | cons t rest ih => simp [taskEntriesFrom, List.enumFrom, ih]

theorem exportTasksOf_sorted (s : DBState) (bid : Nat) :
    (exportTasksOf s bid).Pairwise
      (fun a b => a.creation_time ≤ b.creation_time) := by
  unfold exportTasksOf
  apply List.Pairwise.imp ?_ (List.sorted_mergeSort ?_ ?_ _)
  · intro a b hab
    exact of_decide_eq_true hab
  · intro a b c hab hbc
    exact decide_eq_true
      (le_trans (of_decide_eq_true hab) (of_decide_eq_true hbc))
  · intro a b
    rcases le_total a.creation_time b.creation_time with hle | hle
    · simp [hle]
    · simp [hle]

/-- C8: for every existing board, the export content consists of the header,
then — when the board has tasks — a TASKS block whose entries are the
board's tasks (joined with their assignees) in ascending creation_time
order, each entry numbered 1..N and rendered by `taskEntryLines` (title,
status, assignee name, description or "No description", creation time), and
the footer; a board with no tasks gets the single line
"No tasks in this board." instead of the block. -/
theorem C8_export_tasks_section {s : DBState} {bid : Nat} {now : String}
    {r : ExportResult} (h : exportBoard s (some bid) now = .ok r) :
    ∃ board team, findBoard s bid = some board ∧
      findTeam s board.team_id = some team ∧
      (exportTasksOf s bid).Pairwise
        (fun a b => a.creation_time ≤ b.creation_time) ∧
      (exportTasksOf s bid).Perm
        ((s.tasks.filter (fun t => t.board_id == bid)).filterMap
          (fun t => (findUser s t.user_id).map (fun u =>
            { title := t.title, description := t.description,
              status := t.status, creation_time := t.creation_time,
              user_name := u.name }))) ∧
      ((exportTasksOf s bid).enumFrom 1).map Prod.fst =
        List.range' 1 (exportTasksOf s bid).length ∧
      (exportTasksOf s bid ≠ [] → r.content =
        exportHeader board.name team.name board.description board.status
            board.creation_time ++
          (["TASKS:", String.mk (List.replicate 40 '-')] ++
            ((exportTasksOf s bid).enumFrom 1).flatMap
              (fun p => taskEntryLines p.1 p.2)) ++
          exportFooter now) ∧
      (exportTasksOf s bid = [] → r.content =
        exportHeader board.name team.name board.description board.status
            board.creation_time ++
          ["No tasks in this board."] ++ exportFooter now) := by
  unfold exportBoard at h
  dsimp only at h
  cases hb : findBoard s bid with
  | none =>
    rw [hb] at h
    exact Except.noConfusion h
  | some board =>
    rw [hb] at h
    dsimp only at h
    cases ht : findTeam s board.team_id with
    | none =>
      rw [ht] at h
      exact Except.noConfusion h
    | some team =>
      rw [ht] at h
      dsimp only at h
      obtain rfl := (Except.ok.inj h).symm
      refine ⟨board, team, rfl, ht, exportTasksOf_sorted s bid,
        List.mergeSort_perm _ _, List.enumFrom_map_fst _ _, ?_, ?_⟩
      · intro hne
        have hemp : (exportTasksOf s bid).isEmpty = false := by
          cases hts : exportTasksOf s bid with
          | nil => exact absurd hts hne
          | cons a l => rfl
        dsimp only
        rw [hemp]
        simp [taskEntriesFrom_enumFrom, List.append_assoc]
      · intro hnil
        have hemp : (exportTasksOf s bid).isEmpty = true := by
          rw [hnil]
          rfl
        dsimp only
        rw [hemp]
        simp [List.append_assoc]

/-- Witness for C8: the export of board 1 in the one-task state satisfies the
section layout. -/
theorem C8_export_tasks_section_witness :
    ∃ r board team, exportBoard exTask (some 1) "t9" = Except.ok r ∧
      findBoard exTask 1 = some board ∧
      findTeam exTask board.team_id = some team := by
  obtain ⟨r, hr⟩ : ∃ r, exportBoard exTask (some 1) "t9" = Except.ok r :=
    ⟨_, rfl⟩
  obtain ⟨board, team, h1, h2, -⟩ := C8_export_tasks_section hr
  exact ⟨r, board, team, hr, h1, h2⟩

/-- C9: `update_task_status` succeeds iff the status string is one of OPEN,
IN_PROGRESS, COMPLETE and the task exists; it never consults the parent
board (its outcome and effect are invariant under replacing the boards
table), so a task of a CLOSED board can be moved back to OPEN — and indeed a
reachable state exists whose CLOSED board holds a non-COMPLETE task, so
"every task of a CLOSED board is COMPLETE" is not an invariant. -/
theorem C9_update_task_status (s : DBState) (tid : Nat) (st : String) :
    ((∃ s', updateTaskStatus s (some tid) (some st) = .ok s') ↔
      (st ∈ ["OPEN", "IN_PROGRESS", "COMPLETE"] ∧ (findTask s tid).isSome)) ∧
    (∀ bs, updateTaskStatus { s with boards := bs } (some tid) (some st) =
      (updateTaskStatus s (some tid) (some st)).map
        (fun s' => { s' with boards := bs })) ∧
    (∀ s', updateTaskStatus s (some tid) (some st) = .ok s' →
      s'.boards = s.boards ∧
      s'.tasks = s.tasks.map (fun t => if t.id == tid then
        { t with status :=
            if st = "OPEN" then TaskStatus.OPEN
            else if st = "IN_PROGRESS" then TaskStatus.IN_PROGRESS
            else TaskStatus.COMPLETE }
        else t)) ∧
    (ReachableAll exClosedReopened ∧
      ∃ b ∈ exClosedReopened.boards, b.status = .CLOSED ∧
        ∃ t ∈ exClosedReopened.tasks, t.board_id = b.id ∧
          t.status ≠ .COMPLETE) := by
  refine ⟨⟨?_, ?_⟩, ?_, ?_, ?_, ?_⟩
  · rintro ⟨s', hs'⟩
    unfold updateTaskStatus at hs'
    dsimp only at hs'
    by_cases hv : st ∈ ["OPEN", "IN_PROGRESS", "COMPLETE"]
    · rw [if_neg (not_not_intro hv)] at hs'
      by_cases hf : (findTask s tid).isNone = true
      · rw [if_pos hf] at hs'
        exact Except.noConfusion hs'
      · refine ⟨hv, ?_⟩
        cases ho : findTask s tid with
        | none => rw [ho] at hf; simp at hf
        | some t => simp [ho]
    · rw [if_pos hv] at hs'
      exact Except.noConfusion hs'
  · rintro ⟨hv, hf⟩
    unfold updateTaskStatus
    dsimp only
    rw [if_neg (not_not_intro hv), if_neg (by
      cases ho : findTask s tid with
      | none => rw [ho] at hf; simp at hf
      | some t => simp)]
    exact ⟨_, rfl⟩
  · intro bs
    unfold updateTaskStatus
    dsimp only
    have hft : findTask { s with boards := bs } tid = findTask s tid := rfl
    by_cases hv : st ∈ ["OPEN", "IN_PROGRESS", "COMPLETE"]
    · rw [if_neg (not_not_intro hv), if_neg (not_not_intro hv), hft]
      by_cases hf : (findTask s tid).isNone = true
      · rw [if_pos hf, if_pos hf]
        rfl
      · rw [if_neg hf, if_neg hf]
        rfl
    · rw [if_pos hv, if_pos hv]
      rfl
  · intro s' hs'
    unfold updateTaskStatus at hs'
    dsimp only at hs'
    by_cases hv : st ∈ ["OPEN", "IN_PROGRESS", "COMPLETE"]
    · rw [if_neg (not_not_intro hv)] at hs'
      by_cases hf : (findTask s tid).isNone = true
      · rw [if_pos hf] at hs'
        exact Except.noConfusion hs'
      · rw [if_neg hf] at hs'
        obtain rfl := (Except.ok.inj hs').symm
        exact ⟨rfl, rfl⟩
    · rw [if_pos hv] at hs'
      exact Except.noConfusion hs'
  · have h1 : StepAll initState exAlice :=
      StepAll.ofCreateUser _ ⟨some "alice", some "Alice A"⟩ "t1" _ 1 rfl
    have h2 : StepAll exAlice exTeam :=
      StepAll.ofCreateTeam _ ⟨some "Eng", some "d", some 1⟩ "t2" _ 1 rfl
    have h3 : StepAll exTeam exBoard :=
      StepAll.ofCreateBoard _ ⟨some "B", some "bd", some 1, some "t3"⟩ "tx" _ 1 rfl
    have h4 : StepAll exBoard exTask :=
      StepAll.ofAddTask _ ⟨some "T", some "td", some 1, some 1, some "t4"⟩ "tx" _ 1 rfl
    have h5 : StepAll exTask exTaskDone :=
      StepAll.ofUpdateTaskStatus _ (some 1) (some "COMPLETE") _ rfl
    have h6 : StepAll exTaskDone exClosed :=
      StepAll.ofCloseBoard _ (some 1) "t5" _ rfl
    have h7 : StepAll exClosed exClosedReopened :=
      StepAll.ofUpdateTaskStatus _ (some 1) (some "OPEN") _ rfl
    exact Relation.ReflTransGen.tail (Relation.ReflTransGen.tail
      (Relation.ReflTransGen.tail (Relation.ReflTransGen.tail
        (Relation.ReflTransGen.tail (Relation.ReflTransGen.tail
          (Relation.ReflTransGen.tail Relation.ReflTransGen.refl h1) h2) h3)
            h4) h5) h6) h7
  · exact ⟨(⟨1, "B", "bd", 1, .CLOSED, "t3", some "t5"⟩ : Board),
      by decide, rfl,
      (⟨1, "T", "td", 1, 1, .OPEN, "t4"⟩ : Task),
      by decide, rfl, by decide⟩

/-- Witness for C9: moving the task of the CLOSED board back to OPEN
succeeds. -/
theorem C9_update_task_status_witness :
    ∃ s', updateTaskStatus exClosed (some 1) (some "OPEN") = Except.ok s' :=
  (C9_update_task_status exClosed 1 "OPEN").1.mpr ⟨by decide, by decide⟩

theorem createTeam_missing_description {s : DBState} {req : CreateTeamReq}
    {now : String} (hdesc : req.description = none) :
    createTeam s req now =
      .error "Missing required fields: name, description, admin" := by
  obtain ⟨nmo, dso, ado⟩ := req
  dsimp at hdesc
  subst hdesc
  cases nmo <;> rfl

theorem createBoard_missing_description {s : DBState} {req : CreateBoardReq}
    {now : String} (hdesc : req.description = none) :
    createBoard s req now =
      .error "Missing required fields: name, description, team_id" := by
  obtain ⟨nmo, dso, tio, cto⟩ := req
  dsimp at hdesc
  subst hdesc
  cases nmo <;> rfl

theorem addTask_missing_description {s : DBState} {req : AddTaskReq}
    {now : String} (hdesc : req.description = none) :
    addTask s req now =
      .error "Missing required fields: title, description, user_id" := by
  obtain ⟨tio, dso, uio, bio, cto⟩ := req
  dsimp at hdesc
  subst hdesc
  cases tio <;> rfl

theorem createTeam_empty_description_ok {s : DBState} {nm d : String}
    {a : Nat} (now : String) (hd : pyStrip d = "")
    (hlen : (pyStrip nm).length ≤ 64) (hne : pyStrip nm ≠ "")
    (hadm : (findUser s a).isSome)
    (huniq : ¬ (s.teams.any (fun t => t.name == pyStrip nm) = true)) :
    ∃ s' tid, createTeam s ⟨some nm, some d, some a⟩ now = .ok (s', tid) ∧
      ∃ t ∈ s'.teams, t.id = tid ∧ t.description = "" := by
  unfold createTeam
  dsimp only
  rw [if_neg (by omega), if_neg (by rw [hd]; decide), if_neg hne,
    if_neg (by
      cases ho : findUser s a with
      | none => rw [ho] at hadm; simp at hadm
      | some u => simp), if_neg huniq]
  refine ⟨_, _, rfl, ?_⟩
  exact ⟨_, List.mem_append_right _ (List.mem_singleton.mpr rfl), rfl, hd⟩

theorem createBoard_empty_description_ok {s : DBState} {nm d : String}
    {tid : Nat} (now : String) (hd : pyStrip d = "")
    (hlen : (pyStrip nm).length ≤ 64) (hne : pyStrip nm ≠ "")
    (hteam : (findTeam s tid).isSome)
    (huniq : ¬ (s.boards.any (fun b =>
      b.name == pyStrip nm && b.team_id == tid) = true)) :
    ∃ s' bid, createBoard s ⟨some nm, some d, some tid, none⟩ now =
        .ok (s', bid) ∧
      ∃ b ∈ s'.boards, b.id = bid ∧ b.description = "" := by
  unfold createBoard
  dsimp only
  rw [if_neg (by omega), if_neg (by rw [hd]; decide), if_neg hne,
    if_neg (by
      cases ho : findTeam s tid with
      | none => rw [ho] at hteam; simp at hteam
      | some t => simp), if_neg huniq]
  refine ⟨_, _, rfl, ?_⟩
  exact ⟨_, List.mem_append_right _ (List.mem_singleton.mpr rfl), rfl, hd⟩

theorem addTask_empty_description_ok {s : DBState} {ti d : String}
    {uid bid : Nat} {board : Board} (now : String) (hd : pyStrip d = "")
    (hlen : (pyStrip ti).length ≤ 64) (hne : pyStrip ti ≠ "")
    (hbid : bid ≠ 0) (hb : findBoard s bid = some board)
    (hopen : board.status = .OPEN) (huser : (findUser s uid).isSome)
    (huniq : ¬ (s.tasks.any (fun t =>
      t.title == pyStrip ti && t.board_id == bid) = true)) :
    ∃ s' kid, addTask s ⟨some ti, some d, some uid, some bid, none⟩ now =
        .ok (s', kid) ∧
      ∃ t ∈ s'.tasks, t.id = kid ∧ t.description = "" := by
  unfold addTask
  dsimp only
  rw [if_neg (by simp [hbid]), if_neg (by omega), if_neg (by rw [hd]; decide),
    if_neg hne]
  simp only [Option.getD_some]
  rw [hb]
  dsimp only
  rw [if_neg (by simp [hopen]),
    if_neg (by
      cases ho : findUser s uid with
      | none => rw [ho] at huser; simp at huser
      | some u => simp), if_neg huniq]
  refine ⟨_, _, rfl, ?_⟩
  exact ⟨_, List.mem_append_right _ (List.mem_singleton.mpr rfl), rfl, hd⟩

theorem listTeams_empty_description {s : DBState} {t : Team}
    (ht : t ∈ s.teams) (hd : t.description = "") :
    (⟨t.name, "", t.creation_time, toString t.admin_id⟩ : TeamOut) ∈
      listTeams s := by
  unfold listTeams
  apply List.mem_map.mpr
  refine ⟨t, List.mem_mergeSort.mpr ht, ?_⟩
  simp [hd]

theorem taskEntriesFrom_desc_mem {ts : List ExportTask} {et : ExportTask}
    (h : et ∈ ts) (i : Nat) :
    ("   Description: " ++
      (if et.description = "" then "No description" else et.description)) ∈
      taskEntriesFrom i ts := by
  induction ts generalizing i with
  | nil => simp at h
  | cons t rest ih =>
    unfold taskEntriesFrom
    rcases List.mem_cons.mp h with heq | h
    · subst heq
      apply List.mem_append_left
      unfold taskEntryLines
      simp
    · exact List.mem_append_right _ (ih h (i + 1))

theorem exportBoard_board_desc_rendered {s : DBState} {bid : Nat}
    {now : String} {r : ExportResult} {board : Board}
    (h : exportBoard s (some bid) now = .ok r)
    (hb : findBoard s bid = some board) (hd : board.description = "") :
    "Description: No description" ∈ r.content := by
  unfold exportBoard at h
  dsimp only at h
  rw [hb] at h
  dsimp only at h
  cases ht : findTeam s board.team_id with
  | none =>
    rw [ht] at h
    exact Except.noConfusion h
  | some team =>
    rw [ht] at h
    dsimp only at h
    obtain rfl := (Except.ok.inj h).symm
    apply List.mem_append_left
    apply List.mem_append_left
    unfold exportHeader
    rw [hd]
    simp

theorem exportBoard_task_desc_rendered {s : DBState} {bid : Nat}
    {now : String} {r : ExportResult} {et : ExportTask}
    (h : exportBoard s (some bid) now = .ok r)
    (het : et ∈ exportTasksOf s bid) (hd : et.description = "") :
    "   Description: No description" ∈ r.content := by
  unfold exportBoard at h
  dsimp only at h
  cases hb : findBoard s bid with
  | none =>
    rw [hb] at h
    exact Except.noConfusion h
  | some board =>
    rw [hb] at h
    dsimp only at h
    cases ht : findTeam s board.team_id with
    | none =>
      rw [ht] at h
      exact Except.noConfusion h
    | some team =>
      rw [ht] at h
      dsimp only at h
      obtain rfl := (Except.ok.inj h).symm
      apply List.mem_append_left
      apply List.mem_append_right
      have hemp : (exportTasksOf s bid).isEmpty = false := by
        cases hts : exportTasksOf s bid with
        | nil => rw [hts] at het; simp at het
        | cons a l => rfl
      rw [hemp]
      simp only [Bool.false_eq_true, if_false]
      apply List.mem_append_right
      have := taskEntriesFrom_desc_mem het 1
      rw [hd] at this
      simpa using this

/-- C10: `create_team`, `create_board` and `add_task` all require the
`description` key and fail with their missing-fields error when it is
absent; a description that is empty (or empty after trimming) is accepted
and stored as the empty string, which `list_teams` renders as "" and
`export_board` renders as "No description" both for the board and for each
task entry. -/
theorem C10_description_required :
    (∀ (s : DBState) (req : CreateTeamReq) (now : String),
      req.description = none →
      createTeam s req now =
        .error "Missing required fields: name, description, admin") ∧
    (∀ (s : DBState) (req : CreateBoardReq) (now : String),
      req.description = none →
      createBoard s req now =
        .error "Missing required fields: name, description, team_id") ∧
    (∀ (s : DBState) (req : AddTaskReq) (now : String),
      req.description = none →
      addTask s req now =
        .error "Missing required fields: title, description, user_id") ∧
    (∀ (s : DBState) (nm d : String) (a : Nat) (now : String),
      pyStrip d = "" → (pyStrip nm).length ≤ 64 → pyStrip nm ≠ "" →
      (findUser s a).isSome →
      ¬ (s.teams.any (fun t => t.name == pyStrip nm) = true) →
      ∃ s' tid, createTeam s ⟨some nm, some d, some a⟩ now = .ok (s', tid) ∧
        ∃ t ∈ s'.teams, t.id = tid ∧ t.description = "") ∧
    (∀ (s : DBState) (nm d : String) (tid : Nat) (now : String),
      pyStrip d = "" → (pyStrip nm).length ≤ 64 → pyStrip nm ≠ "" →
      (findTeam s tid).isSome →
      ¬ (s.boards.any (fun b =>
        b.name == pyStrip nm && b.team_id == tid) = true) →
      ∃ s' bid, createBoard s ⟨some nm, some d, some tid, none⟩ now =
          .ok (s', bid) ∧
        ∃ b ∈ s'.boards, b.id = bid ∧ b.description = "") ∧
    (∀ (s : DBState) (ti d : String) (uid bid : Nat) (board : Board)
        (now : String),
      pyStrip d = "" → (pyStrip ti).length ≤ 64 → pyStrip ti ≠ "" →
      bid ≠ 0 → findBoard s bid = some board → board.status = .OPEN →
      (findUser s uid).isSome →
      ¬ (s.tasks.any (fun t =>
        t.title == pyStrip ti && t.board_id == bid) = true) →
      ∃ s' kid, addTask s ⟨some ti, some d, some uid, some bid, none⟩ now =
          .ok (s', kid) ∧
        ∃ t ∈ s'.tasks, t.id = kid ∧ t.description = "") ∧
    (∀ (s : DBState) (t : Team), t ∈ s.teams → t.description = "" →
      (⟨t.name, "", t.creation_time, toString t.admin_id⟩ : TeamOut) ∈
        listTeams s) ∧
    (∀ (s : DBState) (bid : Nat) (now : String) (r : ExportResult)
        (board : Board),
      exportBoard s (some bid) now = .ok r → findBoard s bid = some board →
      board.description = "" → "Description: No description" ∈ r.content) ∧
    (∀ (s : DBState) (bid : Nat) (now : String) (r : ExportResult)
        (et : ExportTask),
      exportBoard s (some bid) now = .ok r → et ∈ exportTasksOf s bid →
      et.description = "" → "   Description: No description" ∈ r.content) :=
  ⟨fun _ _ _ h => createTeam_missing_description h,
   fun _ _ _ h => createBoard_missing_description h,
   fun _ _ _ h => addTask_missing_description h,
   fun _ _ _ _ now hd hlen hne hadm huniq =>
     createTeam_empty_description_ok now hd hlen hne hadm huniq,
   fun _ _ _ _ now hd hlen hne hteam huniq =>
     createBoard_empty_description_ok now hd hlen hne hteam huniq,
   fun _ _ _ _ _ _ now hd hlen hne hbid hb hopen huser huniq =>
     addTask_empty_description_ok now hd hlen hne hbid hb hopen huser huniq,
   fun _ _ ht hd => listTeams_empty_description ht hd,
   fun _ _ _ _ _ h hb hd => exportBoard_board_desc_rendered h hb hd,
   fun _ _ _ _ _ h het hd => exportBoard_task_desc_rendered h het hd⟩

/-- Witness for C10: creating a team without the description key fails with
the missing-fields error, and creating one with a whitespace-only
description succeeds. -/
theorem C10_description_required_witness :
    createTeam exAlice ⟨some "X", none, some 1⟩ "t7" =
      .error "Missing required fields: name, description, admin" ∧
    (∃ s' tid, createTeam exAlice ⟨some "X", some "  ", some 1⟩ "t7" =
        .ok (s', tid) ∧
      ∃ t ∈ s'.teams, t.id = tid ∧ t.description = "") := by
  constructor
  · exact C10_description_required.1 exAlice ⟨some "X", none, some 1⟩ "t7" rfl
  · exact C10_description_required.2.2.2.1 exAlice "X" "  " 1 "t7"
      (by decide) (by decide) (by decide) (by decide) (by decide)

end Planner
